import Mathlib

/-!
# CODERIPPER: the run-dispatch pipeline

A shallow embedding of the execution service (`services/exec-engine/main.go`,
`services/exec-engine/k8s_runner.go`) and of the admission validator
(`services/webhook/main.go`), followed by the properties proved about them.

Conventions of the embedding:

* Wall-clock instants (`time.Time`) are integers counting nanoseconds;
  `t.After(u)` is `u < t` and `t.Add(d)` is `t + d`.
* A Go `map[string]T` that is only looked up and updated is a function
  `String → Option T`; a map that is iterated is the list of its entries in the
  order the iteration of that run visits them.
* A pointer that may be nil (`*bool`, `*string`, `*SecurityContext`) is an `Option`.
* Every call that leaves the process (file system, child processes, the cluster
  API, the object store) takes its outcome from an explicit record of outcomes
  and is appended to a trace of effects.
-/

namespace CodeRipper

/-! ## Rate limiter (`main.go`, lines 33-63) -/

/-- The duration `time.Minute`, in nanoseconds. -/
def Minute : Int := 60 * 1000000000

/-- The method `now.After(u)` of `time.Time`. -/
def After (now u : Int) : Bool := decide (u < now)

/-- The struct `clientInfo`: the bucket of one identity. -/
structure clientInfo where
  count : Int
  windowEnd : Int
  deriving DecidableEq, Repr

/-- The struct `RateLimiter` without its mutex: `allow` holds the mutex from its
first statement to its return, so a call is one atomic step on this state. -/
structure RateLimiter where
  items : String → Option clientInfo
  max : Int

/-- The constructor `newRateLimiter(maxPerMinute)`. -/
def newRateLimiter (maxPerMinute : Int) : RateLimiter :=
  { items := fun _ => none, max := maxPerMinute }

/-- The assignment `rl.items[ip] = ci`. -/
def RateLimiter.set (rl : RateLimiter) (ip : String) (ci : clientInfo) : RateLimiter :=
  { rl with items := fun k => if k = ip then some ci else rl.items k }

/-- The method `(rl *RateLimiter) allow(ip)`, with the value `time.Now()` reads as
the argument `now`. The increment `ci.count++` is reached only when
`ci.count < rl.max`, so it cannot overflow the machine integer. -/
def RateLimiter.allow (rl : RateLimiter) (ip : String) (now : Int) : Bool × RateLimiter :=
  match rl.items ip with
  | none => (true, rl.set ip { count := 1, windowEnd := now + Minute })
  | some ci =>
    if After now ci.windowEnd then
      (true, rl.set ip { count := 1, windowEnd := now + Minute })
    else if ci.count ≥ rl.max then
      (false, rl)
    else
      (true, rl.set ip { ci with count := ci.count + 1 })

/-- A sequence of `allow` calls, each an identity and the instant of the call,
run in order: the decision of every call and the final state. -/
def RateLimiter.run (rl : RateLimiter) : List (String × Int) → List (String × Bool) × RateLimiter
  | [] => ([], rl)
  | (ip, now) :: rest =>
    let r := rl.allow ip now
    let rs := RateLimiter.run r.2 rest
    ((ip, r.1) :: rs.1, rs.2)

/-- The number of calls of identity `ip` that were allowed. -/
def allowedCount (ip : String) (ds : List (String × Bool)) : Nat :=
  (ds.filter (fun d => decide (d.1 = ip) && d.2)).length

/-- No call of identity `ip` in the sequence is made after the window end of the
bucket `ip` has at the moment of the call: all of them fall inside one window. -/
def RateLimiter.withinWindow (rl : RateLimiter) (ip : String) : List (String × Int) → Bool
  | [] => true
  | (id, now) :: rest =>
    (if id = ip then
      match rl.items ip with
      | none => true
      | some ci => !After now ci.windowEnd
    else true) && RateLimiter.withinWindow (rl.allow id now).2 ip rest

/-- The number of further calls of `ip` the limiter can allow before the window
of `ip` ends: the bound of the induction over a sequence of calls. -/
def RateLimiter.remaining (rl : RateLimiter) (ip : String) : Int :=
  match rl.items ip with
  | none => if 1 ≤ rl.max then rl.max else 1
  | some ci => if ci.count ≤ rl.max then rl.max - ci.count else 0

/-! ## Submissions and their normalisation (`main.go`, lines 24-31 and 118-127) -/

/-- The struct `RunRequest`. `Files` lists the entries of the map in the order the
`range` loops of one run visit them. `TimeLimit` (an `int`) and `MemoryLimit` (an
`int64`) are 64-bit machine integers: a decoded request holds values of that range
only (`RunRequest.decodable`), and the handler only compares them and replaces
them by constants, so no arithmetic on them can overflow. -/
structure RunRequest where
  Language : String
  Files : List (String × String)
  Stdin : String
  TimeLimit : Int
  MemoryLimit : Int
  deriving DecidableEq, Repr

/-- The values a 64-bit machine integer can hold. -/
def fitsInt64 (n : Int) : Prop := -9223372036854775808 ≤ n ∧ n ≤ 9223372036854775807

instance (n : Int) : Decidable (fitsInt64 n) := by
  unfold fitsInt64; infer_instance

/-- A request the JSON decoder can produce: its two integers fit their machine
type (a number outside it makes the decoder fail). -/
def RunRequest.decodable (req : RunRequest) : Prop :=
  fitsInt64 req.TimeLimit ∧ fitsInt64 req.MemoryLimit

instance (req : RunRequest) : Decidable req.decodable := by
  unfold RunRequest.decodable; infer_instance

/-- The block "defaults and safety caps" of `runHandler` (lines 118-127): three
assignments to the decoded request, in the order of the source. -/
def applyDefaults (req : RunRequest) : RunRequest :=
  let req1 := if req.TimeLimit ≤ 0 then { req with TimeLimit := 5 } else req
  let req2 := if req1.TimeLimit > 60 then { req1 with TimeLimit := 60 } else req1
  if req2.MemoryLimit ≤ 0 then { req2 with MemoryLimit := 128 * 1024 * 1024 } else req2

/-! ## Paths (`path/filepath` on a system whose separator is the slash)

A location of the file system is the list of the names on the way from the root
to it: the form `filepath.Clean` gives an absolute path. -/

/-- An absolute, cleaned path: the names from the root down. -/
abbrev Path := List String

/-- The text of a path: a slash before every name, `/` for the root. -/
def Path.render (p : Path) : String := "/" ++ "/".intercalate p

/-- The pieces of a text between its slashes. -/
def splitSlash : List Char → List (List Char)
  | [] => [[]]
  | c :: cs =>
    if c = '/' then [] :: splitSlash cs
    else
      match splitSlash cs with
      | [] => [[c]]
      | seg :: segs => (c :: seg) :: segs

/-- The elements of a file name as `filepath.Clean` reads them. -/
def pathSegments (name : String) : List String :=
  (splitSlash name.toList).map String.mk

/-- The lexical rules of `filepath.Clean` on a rooted path, element by element:
an empty element and `.` are dropped, `..` removes the element before it (and is
dropped at the root), any other element is appended. -/
def cleanFrom : Path → List String → Path
  | acc, [] => acc
  | acc, s :: rest =>
    if s = "" ∨ s = "." then cleanFrom acc rest
    else if s = ".." then cleanFrom acc.dropLast rest
    else cleanFrom (acc ++ [s]) rest

/-- The call `filepath.Join(dir, name)` for an absolute directory `dir`: the
elements of `dir` followed by those of `name`, cleaned. -/
def Join (dir : Path) (name : String) : Path :=
  cleanFrom [] (dir ++ pathSegments name)

/-- The call `filepath.Dir(p)` on a cleaned absolute path: the parent, the root
being its own parent. -/
def Dir (p : Path) : Path := p.dropLast

/-- The call `filepath.Base(p)` on a cleaned absolute path. -/
def Base (p : Path) : String := p.getLast?.getD "/"

/-- The text `s[:len(s)-len(filepath.Ext(s))]`: `s` without the suffix that
starts at its last dot, `s` itself when it has no dot. -/
def trimExt (s : String) : String :=
  if '.' ∈ s.toList then
    String.mk ((s.toList.reverse.dropWhile (fun c => c != '.')).drop 1).reverse
  else s

/-- A location is inside a directory when the way to it passes through the
directory (the directory itself included). -/
def Path.inside (dir p : Path) : Prop := dir <+: p

/-- A directory path as `os.MkdirTemp` returns it, already clean: no element is
empty, `.` or `..`. -/
def Path.isClean (p : Path) : Prop := ∀ s ∈ p, s ≠ "" ∧ s ≠ "." ∧ s ≠ ".."

instance (dir p : Path) : Decidable (Path.inside dir p) := by
  unfold Path.inside; infer_instance

instance (p : Path) : Decidable (Path.isClean p) := by
  unfold Path.isClean; infer_instance

/-! ## Native runner (`main.go`, lines 274-416) -/

/-- The struct `NativeResult`. -/
structure NativeResult where
  Stdout : String
  Stderr : String
  ExitCode : Int
  Success : Bool
  Language : String
  deriving DecidableEq, Repr

/-- A non-nil error of `cmd.Run()`: an `*exec.ExitError` with the value of its
`ExitCode()`, or any other error with its message. -/
inductive RunErr where
  | exit (code : Int)
  | other (msg : String)
  deriving DecidableEq, Repr

/-- What one child process did: the captured streams, the error of `cmd.Run()`
(none for nil) and whether `ctx.Err()` is `context.DeadlineExceeded` afterwards. -/
structure ProcOutcome where
  stdout : String
  stderr : String
  err : Option RunErr
  deadline : Bool
  deriving DecidableEq, Repr

/-- The outcomes of the calls a native or container run makes outside the process:
`os.MkdirTemp` (the directory or the message of its error), `os.MkdirAll` and
`os.WriteFile` (the message of the error, none for nil), the compile step
(`CombinedOutput`: the output and the error) and the run of the program. -/
structure HostWorld where
  mkdirTemp : Except String Path
  mkdirAll : Path → Option String
  writeFile : Path → Option String
  compile : String × Option String
  run : ProcOutcome

/-- The calls a native or container run makes outside the process, in order. -/
inductive HostEffect where
  | mkdirAll (p : Path)
  | writeFile (p : Path) (content : String)
  | exec (argv : List String)
  | removeAll (p : Path)
  deriving DecidableEq, Repr

/-- The loop "Write files to temp directory" of `executeNative` (lines 294-306):
the first error ends the run with its message; otherwise the value of `mainFile`
after the loop (none for the empty text). -/
def nativeWriteFiles (w : HostWorld) (tmpDir : Path) :
    List (String × String) → Option Path → Except String (Option Path) × List HostEffect
  | [], mainFile => (.ok mainFile, [])
  | (name, content) :: rest, mainFile =>
    let p := Join tmpDir name
    match w.mkdirAll (Dir p) with
    | some e => (.error ("Failed to create directory: " ++ e), [.mkdirAll (Dir p)])
    | none =>
      match w.writeFile p with
      | some e =>
        (.error ("Failed to write file: " ++ e), [.mkdirAll (Dir p), .writeFile p content])
      | none =>
        let r := nativeWriteFiles w tmpDir rest (if mainFile = none then some p else mainFile)
        (r.1, .mkdirAll (Dir p) :: .writeFile p content :: r.2)

/-- The `switch req.Language` of `executeNative` (lines 313-369): for a supported
tag the command line of the compile step, if there is one, and the command line
of the run; none for the `default` branch. -/
def nativeCommand (lang : String) (tmpDir : Path) (mainFile : Option Path) :
    Option (Option (List String) × List String) :=
  let main := match mainFile with
    | none => ""
    | some p => p.render
  let className := match mainFile with
    | none => ""
    | some p => trimExt (Base p)
  if lang = "python" ∨ lang = "python3" then some (none, ["python", main])
  else if lang = "javascript" ∨ lang = "js" ∨ lang = "node" then some (none, ["node", main])
  else if lang = "typescript" ∨ lang = "ts" then some (none, ["npx", "ts-node", main])
  else if lang = "go" ∨ lang = "golang" then some (none, ["go", "run", main])
  else if lang = "java" then
    some (some ["javac", main], ["java", "-cp", tmpDir.render, className])
  else if lang = "c" then
    some (some ["gcc", main, "-o", (Join tmpDir "a.out").render], [(Join tmpDir "a.out").render])
  else if lang = "cpp" ∨ lang = "c++" then
    some (some ["g++", main, "-o", (Join tmpDir "a.out").render], [(Join tmpDir "a.out").render])
  else if lang = "rust" then
    some (some ["rustc", main, "-o", (Join tmpDir "main").render], [(Join tmpDir "main").render])
  else if lang = "ruby" then some (none, ["ruby", main])
  else if lang = "php" then some (none, ["php", main])
  else if lang = "bash" ∨ lang = "sh" ∨ lang = "shell" then some (none, ["bash", main])
  else if lang = "powershell" ∨ lang = "ps1" then
    some (none, ["powershell", "-ExecutionPolicy", "Bypass", "-File", main])
  else none

/-- The end of `executeNative` (lines 371-415): the run of the command and the
result made of its outcome. The standard input handed to the child and its
working directory show only in that outcome. -/
def nativeRun (w : HostWorld) (req : RunRequest) (argv : List String) :
    NativeResult × List HostEffect :=
  let o := w.run
  let res : NativeResult :=
    match o.err with
    | none =>
      { Stdout := o.stdout, Stderr := o.stderr, ExitCode := 0, Success := true,
        Language := req.Language }
    | some e =>
      if o.deadline then
        { Stdout := o.stdout,
          Stderr := "Execution timed out after " ++ toString req.TimeLimit ++ " seconds",
          ExitCode := 124, Success := false, Language := req.Language }
      else
        match e with
        | .exit code =>
          { Stdout := o.stdout, Stderr := o.stderr, ExitCode := code,
            Success := decide (code = 0), Language := req.Language }
        | .other msg =>
          { Stdout := o.stdout, Stderr := o.stderr ++ "\nError: " ++ msg, ExitCode := 1,
            Success := false, Language := req.Language }
  (res, [.exec argv])

/-- The body of `executeNative` after the temporary directory exists (lines
292-415), without the deferred `os.RemoveAll`. -/
def executeNativeIn (w : HostWorld) (req : RunRequest) (tmpDir : Path) :
    NativeResult × List HostEffect :=
  match nativeWriteFiles w tmpDir req.Files none with
  | (.error msg, eff) =>
    ({ Stdout := "", Stderr := msg, ExitCode := 1, Success := false, Language := "" }, eff)
  | (.ok mainFile, eff) =>
    match nativeCommand req.Language tmpDir mainFile with
    | none =>
      ({ Stdout := "",
         Stderr := "Language '" ++ req.Language ++ "' is not supported for native execution. Supported: python, javascript, typescript, go, java, c, cpp, rust, ruby, php, bash, powershell",
         ExitCode := 1, Success := false, Language := req.Language }, eff)
    | some (none, argv) =>
      let r := nativeRun w req argv
      (r.1, eff ++ r.2)
    | some (some cargv, argv) =>
      match w.compile.2 with
      | some _ =>
        ({ Stdout := "", Stderr := "Compilation failed:\n" ++ w.compile.1, ExitCode := 1,
           Success := false, Language := req.Language }, eff ++ [.exec cargv])
      | none =>
        let r := nativeRun w req argv
        (r.1, eff ++ [.exec cargv] ++ r.2)

/-- The function `executeNative(req)`: the result and the calls made outside the
process, the deferred `os.RemoveAll(tmpDir)` last. -/
def executeNative (w : HostWorld) (req : RunRequest) : NativeResult × List HostEffect :=
  match w.mkdirTemp with
  | .error e =>
    ({ Stdout := "", Stderr := "Failed to create temp directory: " ++ e, ExitCode := 1,
       Success := false, Language := "" }, [])
  | .ok tmpDir =>
    let r := executeNativeIn w req tmpDir
    (r.1, r.2 ++ [.removeAll tmpDir])

/-- The paths a run wrote to with `os.WriteFile`. -/
def writtenPaths : List HostEffect → List Path
  | [] => []
  | .writeFile p _ :: rest => p :: writtenPaths rest
  | _ :: rest => writtenPaths rest

/-- The command lines of the child processes a run launched. -/
def launched : List HostEffect → List (List String)
  | [] => []
  | .exec argv :: rest => argv :: launched rest
  | _ :: rest => launched rest

/-- The case labels of the `switch req.Language` of `executeNative`. -/
def nativeTags : List String :=
  ["python", "python3", "javascript", "js", "node", "typescript", "ts", "go", "golang",
   "java", "c", "cpp", "c++", "rust", "ruby", "php", "bash", "sh", "shell", "powershell", "ps1"]

/-- The text of the `default` branch of the `switch req.Language`. -/
def notSupported (lang : String) : String :=
  "Language '" ++ lang ++ "' is not supported for native execution. Supported: python, javascript, typescript, go, java, c, cpp, rust, ruby, php, bash, powershell"

/-! ## Pods (`k8s.io/api/core/v1`, the fields the two services read or set) -/

/-- The struct `corev1.SecurityContext`. -/
structure SecurityContext where
  AllowPrivilegeEscalation : Option Bool
  ReadOnlyRootFilesystem : Option Bool
  RunAsNonRoot : Option Bool
  SeccompProfile : Option String
  deriving DecidableEq, Repr

/-- The struct `corev1.VolumeMount`. -/
structure VolumeMount where
  Name : String
  MountPath : String
  ReadOnly : Bool
  deriving DecidableEq, Repr

/-- The struct `corev1.Container`. -/
structure Container where
  Name : String
  Image : String
  Command : List String
  Args : List String
  VolumeMounts : List VolumeMount
  Limits : List (String × String)
  Requests : List (String × String)
  SecurityContext : Option SecurityContext
  deriving DecidableEq, Repr

/-- The struct `corev1.VolumeSource`: an empty directory or a ConfigMap by name. -/
inductive VolumeSource where
  | emptyDir
  | configMap (name : String)
  deriving DecidableEq, Repr

/-- The struct `corev1.Volume`. -/
structure Volume where
  Name : String
  Source : VolumeSource
  deriving DecidableEq, Repr

/-- The struct `corev1.PodSpec`. -/
structure PodSpec where
  ServiceAccountName : String
  RestartPolicy : String
  HostNetwork : Bool
  RuntimeClassName : Option String
  AutomountServiceAccountToken : Option Bool
  Containers : List Container
  InitContainers : List Container
  Volumes : List Volume
  deriving DecidableEq, Repr

/-- The struct `corev1.ContainerStatus`: the name and, when the state is
terminated, the exit code. -/
structure ContainerStatus where
  Name : String
  Terminated : Option Int
  deriving DecidableEq, Repr

/-- The struct `corev1.Pod`. -/
structure Pod where
  Name : String
  Spec : PodSpec
  ContainerStatuses : List ContainerStatus
  deriving DecidableEq, Repr

/-! ## Kubernetes runner (`k8s_runner.go`) -/

/-- The struct `K8sRunResult`. -/
structure K8sRunResult where
  Stdout : String
  ExitCode : Int
  Success : Bool
  deriving DecidableEq, Repr

/-- The struct `batchv1.JobCondition`: its fields `Type` and `Status`. -/
structure JobCondition where
  Type_ : String
  Status : String
  deriving DecidableEq, Repr

/-- The struct `batchv1.Job` as `submitK8sJob` builds it. -/
structure Job where
  Name : String
  Namespace : String
  Labels : List (String × String)
  Template : PodSpec
  BackoffLimit : Int
  TTLSecondsAfterFinished : Int
  deriving DecidableEq, Repr

/-- The outcomes of the calls one run of `submitK8sJob` makes outside the process.
An `Option String` is the message of the error of the call, none for nil. The
three tags are the values of `time.Now().UnixNano()` that name the ConfigMap, the
object and the Job. `polls` lists what `jobs.Get` returned at the ticks the
`select` took before the deadline; the deadline fires when the list is used up. -/
structure K8sWorld where
  inClusterConfig : Option String
  kubeconfig : Option String
  newClient : Option String
  s3New : Option String
  tarHeader : String → Option String
  tarWrite : String → Option String
  putObject : Option String
  presign : Except String String
  cmTag : Int
  objTag : Int
  jobTag : Int
  cmCreate : Option String
  cmDelete : Option String
  jobCreate : Option String
  polls : List (Except String (List JobCondition))
  podList : Except String (List Pod)
  logs : Except String String

/-- The calls `submitK8sJob` makes to the object store and to the cluster, in
order; `ok` tells whether the call returned without error. -/
inductive K8sEffect where
  | s3New (endpoint : String) (useSSL : Bool) (ok : Bool)
  | s3MakeBucket (bucket : String)
  | s3PutObject (bucket key : String) (files : List (String × String)) (ok : Bool)
  | s3Presign (bucket key : String) (ok : Bool)
  | createConfigMap (ns name : String) (data : List (String × String)) (ok : Bool)
  | deleteConfigMap (ns name : String) (ok : Bool)
  | createJob (job : Job) (ok : Bool)
  | getJob (ns name : String)
  | deleteJob (ns name : String)
  | listPods (ns selector : String)
  | podLogs (ns pod container : String)
  deriving DecidableEq, Repr

/-- The two values `submitK8sJob` returns: a result with a nil error, or a non-nil
error together with the result pointer (nil on every path but the timeout). -/
inductive K8sReturn where
  | result (r : K8sRunResult)
  | error (r : Option K8sRunResult) (msg : String)
  deriving DecidableEq, Repr

/-- What a run of `submitK8sJob` (or of a part of it) yields. -/
structure K8sOutput where
  ret : K8sReturn
  trace : List K8sEffect
  deriving DecidableEq, Repr

/-- The constant `maxConfigMapSize`: 256 KiB. -/
def maxConfigMapSize : Nat := 256 * 1024

/-- The loop `for _, v := range req.Files { total += len(v) }`: the sum of the byte
lengths of the contents. -/
def totalSize : List (String × String) → Nat
  | [] => 0
  | (_, v) :: rest => v.utf8ByteSize + totalSize rest

/-- The value of `useS3` (line 59). -/
def useS3 (env : String → String) (req : RunRequest) : Bool :=
  decide (totalSize req.Files > maxConfigMapSize) && (env "S3_ENDPOINT" != "")

/-- The client acquisition of lines 38-50: the error it returns, none when a
client was made. -/
def acquireClient (w : K8sWorld) : Option String :=
  match w.inClusterConfig with
  | none =>
    match w.newClient with
    | none => none
    | some e => some ("failed to create k8s client: " ++ e)
  | some _ =>
    match w.kubeconfig with
    | some e => some ("failed to create k8s config: " ++ e)
    | none =>
      match w.newClient with
      | none => none
      | some e => some ("failed to create k8s client: " ++ e)

/-- The loop that writes the archive (lines 89-97): the first error, if any. -/
def tarFiles (w : K8sWorld) : List (String × String) → Option String
  | [] => none
  | (name, _) :: rest =>
    match w.tarHeader name with
    | some e => some ("tar header: " ++ e)
    | none =>
      match w.tarWrite name with
      | some e => some ("tar write: " ++ e)
      | none => tarFiles w rest

/-- The object-store branch (lines 66-120): the error it returns, or the volumes
and init containers of the pod, with the calls made. -/
def s3Transport (w : K8sWorld) (env : String → String) (req : RunRequest) :
    Except String (List Volume × List Container) × List K8sEffect :=
  let endpoint := env "S3_ENDPOINT"
  let bucket := if env "S3_BUCKET" = "" then "coderipper-submissions" else env "S3_BUCKET"
  let useSSL := env "S3_USE_SSL" != "false"
  match w.s3New with
  | some e => (.error ("minio client: " ++ e), [.s3New endpoint useSSL false])
  | none =>
    let objKey := "submission-" ++ toString w.objTag ++ ".tar"
    let pre := [K8sEffect.s3New endpoint useSSL true, .s3MakeBucket bucket]
    match tarFiles w req.Files with
    | some e => (.error e, pre)
    | none =>
      match w.putObject with
      | some e => (.error ("s3 upload: " ++ e), pre ++ [.s3PutObject bucket objKey req.Files false])
      | none =>
        match w.presign with
        | .error e =>
          (.error ("presign: " ++ e),
            pre ++ [.s3PutObject bucket objKey req.Files true, .s3Presign bucket objKey false])
        | .ok url =>
          let fetch : Container :=
            { Name := "fetch-submission", Image := "alpine:3.18",
              Command := ["sh", "-c",
                "apk add --no-cache curl tar >/dev/null 2>&1 && curl -fsS '" ++ url ++
                "' -o /tmp/sub.tar && mkdir -p /submission && tar -xf /tmp/sub.tar -C /submission"],
              Args := [],
              VolumeMounts := [{ Name := "submission", MountPath := "/submission", ReadOnly := false }],
              Limits := [], Requests := [], SecurityContext := none }
          (.ok ([{ Name := "submission", Source := .emptyDir }], [fetch]),
            pre ++ [.s3PutObject bucket objKey req.Files true, .s3Presign bucket objKey true])

/-- The pod template of lines 146-180. -/
def buildPodSpec (image : String) (volumes : List Volume) (initContainers : List Container) :
    PodSpec :=
  { ServiceAccountName := "coderipper-runner-sa",
    RestartPolicy := "Never",
    HostNetwork := false,
    RuntimeClassName := none,
    AutomountServiceAccountToken := some false,
    Containers := [
      { Name := "runner", Image := image, Command := [], Args := ["./run.sh"],
        VolumeMounts := [{ Name := "submission", MountPath := "/submission", ReadOnly := true }],
        Limits := [("cpu", "500m"), ("memory", "512Mi")],
        Requests := [("cpu", "100m"), ("memory", "128Mi")],
        SecurityContext := some
          { AllowPrivilegeEscalation := some false,
            ReadOnlyRootFilesystem := some true,
            RunAsNonRoot := some true,
            SeccompProfile := some "RuntimeDefault" } }],
    InitContainers := initContainers,
    Volumes := volumes }

/-- The Job of lines 182-189. -/
def buildJob (jobName ns image : String) (volumes : List Volume)
    (initContainers : List Container) : Job :=
  { Name := jobName, Namespace := ns, Labels := [("app", "coderipper-runner")],
    Template := buildPodSpec image volumes initContainers,
    BackoffLimit := 0, TTLSecondsAfterFinished := 60 }

/-- How the loop `forLoop` (lines 206-226) ends. -/
inductive Supervision where
  | timedOut
  | getError (msg : String)
  | terminal
  deriving DecidableEq, Repr

/-- The test of the inner loop (lines 217-224): some condition of the Job is
`Complete` or `Failed` with status `True`. -/
def isTerminal (conds : List JobCondition) : Bool :=
  conds.any (fun c =>
    (c.Type_ == "Complete" && c.Status == "True") || (c.Type_ == "Failed" && c.Status == "True"))

/-- The loop `forLoop`: how it ends and how many times `jobs.Get` was called. -/
def supervise : List (Except String (List JobCondition)) → Supervision × Nat
  | [] => (.timedOut, 0)
  | .error e :: _ => (.getError e, 1)
  | .ok conds :: rest =>
    if isTerminal conds then (.terminal, 1)
    else ((supervise rest).1, (supervise rest).2 + 1)

/-- The loop of lines 244-251: the exit code of the last status named `runner`
that is terminated, zero when there is none. -/
def exitCodeOf (statuses : List ContainerStatus) : Int :=
  statuses.foldl (fun exit cs =>
    if cs.Name = "runner" then
      match cs.Terminated with
      | some code => code
      | none => exit
    else exit) 0

/-- Output collection (lines 228-253), without the deferred calls. -/
def collectOutput (w : K8sWorld) (ns : String) : K8sOutput :=
  let list := K8sEffect.listPods ns "app=coderipper-runner"
  match w.podList with
  | .error _ =>
    { ret := .result { Stdout := "no pod logs", ExitCode := 1, Success := false }, trace := [list] }
  | .ok [] =>
    { ret := .result { Stdout := "no pod logs", ExitCode := 1, Success := false }, trace := [list] }
  | .ok (pod :: _) =>
    match w.logs with
    | .error e =>
      { ret := .error none ("pod logs: " ++ e), trace := [list, .podLogs ns pod.Name "runner"] }
    | .ok text =>
      let exit := exitCodeOf pod.ContainerStatuses
      { ret := .result { Stdout := text, ExitCode := exit, Success := decide (exit = 0) },
        trace := [list, .podLogs ns pod.Name "runner"] }

/-- Lines 141-253 of `submitK8sJob`: the Job is created, supervised and its output
collected. The deferred ConfigMap delete is not part of it. -/
def runJob (w : K8sWorld) (image : String) (ns : String)
    (volumes : List Volume) (initContainers : List Container) : K8sOutput :=
  let jobName := "runner-job-" ++ toString w.jobTag
  let job := buildJob jobName ns image volumes initContainers
  match w.jobCreate with
  | some e => { ret := .error none ("create job: " ++ e), trace := [.createJob job false] }
  | none =>
    let sup := supervise w.polls
    let gets := List.replicate sup.2 (K8sEffect.getJob ns jobName)
    match sup.1 with
    | .timedOut =>
      { ret := .error (some { Stdout := "timeout", ExitCode := 137, Success := false })
          "job timeout",
        trace := [.createJob job true] ++ gets ++ [.deleteJob ns jobName] }
    | .getError e =>
      { ret := .error none ("get job: " ++ e), trace := [.createJob job true] ++ gets }
    | .terminal =>
      let out := collectOutput w ns
      { ret := out.ret, trace := [.createJob job true] ++ gets ++ out.trace }

/-- The function `submitK8sJob(req, image, timeout, namespace)`. In the inline
branch the deferred ConfigMap delete is the last call of every path that follows
the successful create. The deadline `timeout` sets shows in `w.polls`: the ticks
taken before it fired. -/
def submitK8sJob (w : K8sWorld) (env : String → String) (req : RunRequest) (image : String)
    (_timeout : Int) (ns : String) : K8sOutput :=
  match acquireClient w with
  | some e => { ret := .error none e, trace := [] }
  | none =>
    if useS3 env req then
      match s3Transport w env req with
      | (.error e, tr) => { ret := .error none e, trace := tr }
      | (.ok (volumes, initContainers), tr) =>
        let out := runJob w image ns volumes initContainers
        { ret := out.ret, trace := tr ++ out.trace }
    else
      let cmName := "submission-" ++ toString w.cmTag
      match w.cmCreate with
      | some e =>
        { ret := .error none ("create configmap: " ++ e),
          trace := [.createConfigMap ns cmName req.Files false] }
      | none =>
        let out := runJob w image ns
          [{ Name := "submission", Source := .configMap cmName }] []
        { ret := out.ret,
          trace := [.createConfigMap ns cmName req.Files true] ++ out.trace ++
            [.deleteConfigMap ns cmName w.cmDelete.isNone] }

/-- The run gets as far as output collection: a client is made, the payload
carrier and the Job are created, and supervision ends on a terminal condition of
the Job. -/
def reachesCollection (w : K8sWorld) (env : String → String) (req : RunRequest) : Bool :=
  (acquireClient w).isNone &&
  (if useS3 env req then
    match (s3Transport w env req).1 with
    | .ok _ => true
    | .error _ => false
   else w.cmCreate.isNone) &&
  w.jobCreate.isNone && decide ((supervise w.polls).1 = .terminal)

/-- A call that creates or deletes a ConfigMap. -/
def K8sEffect.isConfigMap : K8sEffect → Bool
  | .createConfigMap _ _ _ _ => true
  | .deleteConfigMap _ _ _ => true
  | _ => false

/-- A call to the object store. -/
def K8sEffect.isObjectStore : K8sEffect → Bool
  | .s3New _ _ _ => true
  | .s3MakeBucket _ => true
  | .s3PutObject _ _ _ _ => true
  | .s3Presign _ _ _ => true
  | _ => false

/-- The run used the inline ConfigMap transport: it called the ConfigMap API. -/
def usesInline (trace : List K8sEffect) : Bool := trace.any K8sEffect.isConfigMap

/-- The run used the object-store transport: it called the object store. -/
def usesObjectStore (trace : List K8sEffect) : Bool := trace.any K8sEffect.isObjectStore

/-- The ConfigMap names of the cluster after a call, given the names before it: a
successful create adds the name, a successful delete removes it. -/
def configMapsAfter (cms : List String) : K8sEffect → List String
  | .createConfigMap _ name _ true => name :: cms
  | .deleteConfigMap _ name true => cms.filter (fun n => n != name)
  | _ => cms

/-! ## Run handler (`main.go`, lines 99-272) -/

/-- The function `mapStatus`. -/
def mapStatus (ok : Bool) : String := if ok then "ok" else "fail"

/-- What the handlers read of a request: the peer address, the host
`net.SplitHostPort` finds in it (the empty text when it fails), the submission the
body decodes to (none when decoding fails), the value the context holds under
`user_id` (none when it holds no text) and the value of the header
`Authorization` (the empty text when the header is absent). -/
structure HttpRequest where
  RemoteAddr : String
  RemoteHost : String
  body : Option RunRequest
  userID : Option String
  Authorization : String := ""

/-- What the handler writes to the response body. `http.Error` writes its message
and a newline as text. -/
inductive Body where
  | text (s : String)
  | k8s (r : K8sRunResult)
  | native (r : NativeResult)
  deriving DecidableEq, Repr

/-- The status line and the body of a response; a handler that writes a body
without setting a status answers 200. -/
structure Response where
  status : Nat
  body : Body
  deriving DecidableEq, Repr

/-- The call `http.Error(w, msg, code)`. -/
def httpError (msg : String) (code : Nat) : Response :=
  { status := code, body := .text (msg ++ "\n") }

/-- The surroundings of one request: the environment variables, the instant
`time.Now()` gives the rate limiter, and the outcomes of the calls of the runner
that is selected. -/
structure World where
  env : String → String
  now : Int
  host : HostWorld
  k8s : K8sWorld

/-- The hand-over of a request to a runner: the runner, the request passed to it
(`submitK8sJob(req, ...)` at line 145, `executeNative(req)` at line 164, the files
and the command line made of `req` at lines 188-202) and the duration
`time.Duration(req.TimeLimit)*time.Second` of the deadline of the run (lines 145,
200 and 310), in nanoseconds. -/
structure Dispatch where
  runner : String
  req : RunRequest
  deadline : Int
  deriving DecidableEq, Repr

/-- Everything one request does: the response, the increments of `runsCounter` as
pairs of mode and status, the modes `runsDuration` observed, the badge
notifications started, the rate limiter afterwards, the calls made outside the
process and the hand-over to a runner, none when the handler returns before it. -/
structure Handled where
  response : Response
  metrics : List (String × String)
  durations : List String
  badges : List (String × String)
  limiter : RateLimiter
  hostEffects : List HostEffect
  k8sEffects : List K8sEffect
  dispatched : Option Dispatch := none

/-- The image the handler picks for the container and Kubernetes runners. -/
def runnerImage (req : RunRequest) : String :=
  if req.Language = "go" then "coderipper/runner-go:latest"
  else "coderipper/runner-python:latest"

/-- The loop that writes the files in Docker mode (lines 188-196): errors are
logged and the loop goes on. -/
def dockerWriteFiles (tmpDir : Path) : List (String × String) → List HostEffect
  | [] => []
  | (name, content) :: rest =>
    .mkdirAll (Dir (Join tmpDir name)) :: .writeFile (Join tmpDir name) content ::
      dockerWriteFiles tmpDir rest

/-- The text of the `--memory` argument (line 199): the quotient of the machine
division by 1024*1024, then `m`. -/
def dockerMem (req : RunRequest) : String :=
  toString (Int.tdiv req.MemoryLimit (1024 * 1024)) ++ "m"

/-- The command line of line 202. -/
def dockerArgv (req : RunRequest) (tmpDir : Path) : List String :=
  ["docker", "run", "--rm", "--network", "none", "-v", tmpDir.render ++ ":/submission:ro",
   "--memory", dockerMem req, "--cpus", "1", runnerImage req, "./run.sh"]

/-- The Kubernetes branch of the handler (lines 135-160). -/
def handleK8s (w : World) (rl : RateLimiter) (r : HttpRequest) (req : RunRequest) : Handled :=
  let ns := if w.env "K8S_NAMESPACE" = "" then "default" else w.env "K8S_NAMESPACE"
  let out := submitK8sJob w.k8s w.env req (runnerImage req) (req.TimeLimit * 1000000000) ns
  match out.ret with
  | .error _ msg =>
    { response := httpError ("job submit failed: " ++ msg) 500,
      metrics := [("k8s", "error")], durations := [], badges := [], limiter := rl,
      hostEffects := [], k8sEffects := out.trace,
      dispatched := some
        { runner := "k8s", req := req, deadline := req.TimeLimit * 1000000000 } }
  | .result res =>
    { response := { status := 200, body := .k8s res },
      metrics := [("k8s", mapStatus res.Success)], durations := ["k8s"],
      badges := if r.userID.getD "" ≠ "" ∧ res.Success = true
        then [(r.userID.getD "", "run_success")] else [],
      limiter := rl, hostEffects := [], k8sEffects := out.trace,
      dispatched := some
        { runner := "k8s", req := req, deadline := req.TimeLimit * 1000000000 } }

/-- The native branch of the handler (lines 162-170). -/
def handleNative (w : World) (rl : RateLimiter) (req : RunRequest) : Handled :=
  let out := executeNative w.host req
  { response := { status := 200, body := .native out.1 },
    metrics := [("native", mapStatus out.1.Success)], durations := ["native"], badges := [],
    limiter := rl, hostEffects := out.2, k8sEffects := [],
    dispatched := some
      { runner := "native", req := req, deadline := req.TimeLimit * 1000000000 } }

/-- The Docker branch of the handler (lines 172-238). -/
def handleDocker (w : World) (rl : RateLimiter) (r : HttpRequest) (req : RunRequest) : Handled :=
  match w.host.mkdirTemp with
  | .error _ =>
    { response := httpError "internal error" 500, metrics := [("docker", "error")],
      durations := [], badges := [], limiter := rl, hostEffects := [], k8sEffects := [] }
  | .ok tmpDir =>
    let eff := dockerWriteFiles tmpDir req.Files ++ [.exec (dockerArgv req tmpDir)] ++
      [.removeAll tmpDir]
    let o := w.host.run
    if o.deadline then
      { response := { status := 200, body := .text "\n--- run timeout ---\n" },
        metrics := [("docker", "timeout")], durations := [], badges := [], limiter := rl,
        hostEffects := eff, k8sEffects := [],
        dispatched := some
          { runner := "docker", req := req, deadline := req.TimeLimit * 1000000000 } }
    else
      let exitCode : Int :=
        match o.err with
        | none => 0
        | some (.exit code) => code
        | some (.other _) => 1
      let success := decide (exitCode = 0)
      { response := { status := 200, body := .text o.stdout },
        metrics := [("docker", mapStatus success)], durations := ["docker"],
        badges := if r.userID.getD "" ≠ "" ∧ success = true
          then [(r.userID.getD "", "run_success")] else [],
        limiter := rl, hostEffects := eff, k8sEffects := [],
        dispatched := some
          { runner := "docker", req := req, deadline := req.TimeLimit * 1000000000 } }

/-- The key the handler passes to `rl.allow` (lines 101-104). -/
def rateKey (r : HttpRequest) : String :=
  if r.RemoteHost = "" then r.RemoteAddr else r.RemoteHost

/-- The handler `runHandler(rl)` on one request. -/
def runHandler (w : World) (rl : RateLimiter) (r : HttpRequest) : Handled :=
  let a := rl.allow (rateKey r) w.now
  if a.1 = false then
    { response := httpError "rate limit exceeded" 429,
      metrics := [(w.env "RUNNER_MODE", "rate_limited")], durations := [], badges := [],
      limiter := a.2, hostEffects := [], k8sEffects := [] }
  else
    match r.body with
    | none =>
      { response := httpError "bad request" 400,
        metrics := [(w.env "RUNNER_MODE", "bad_request")], durations := [], badges := [],
        limiter := a.2, hostEffects := [], k8sEffects := [] }
    | some decoded =>
      let req := applyDefaults decoded
      let mode := if w.env "RUNNER_MODE" = "" then "native" else w.env "RUNNER_MODE"
      if mode = "k8s" then handleK8s w a.2 r req
      else if mode = "native" then handleNative w a.2 req
      else handleDocker w a.2 r req

/-! ## Token verifier (`main.go`, lines 70-93) -/

/-- The space characters of package `fmt` that a header value can hold (a header
value holds no line break). -/
def isSpace (c : Char) : Bool :=
  c = ' ' || c = '\t' || c.val = 0x0b || c.val = 0x0c || c.val = 0x85 || c.val = 0xa0 ||
  c.val = 0x1680 || (0x2000 ≤ c.val && c.val ≤ 0x200a) || c.val = 0x2028 || c.val = 0x2029 ||
  c.val = 0x202f || c.val = 0x205f || c.val = 0x3000

/-- The value of `tokenString` after `fmt.Sscanf(h, "Bearer %s", &tokenString)`:
the input must start with the text `Bearer`, the space of the format must meet a
space of the input, and the verb `%s` stores the characters up to the next space;
when the input does not match, nothing is stored and the text stays empty. -/
def scanBearer (h : String) : String :=
  if "Bearer".toList.isPrefixOf h.toList then
    match h.toList.drop 6 with
    | [] => ""
    | c :: rest =>
      if isSpace c then
        String.mk (((c :: rest).dropWhile isSpace).takeWhile (fun x => !isSpace x))
      else ""
  else ""

/-- What the middleware did with a request: the response, and the requests it
handed to `next`, in order. -/
structure Served where
  response : Response
  forwarded : List HttpRequest

/-- The handler `authMiddleware(secret, next)` returns, on one request. The call
`jwt.ParseWithClaims` of the token library is the argument `jwtParse`: for a
secret and a token it yields the subject of the claims when the call returns no
error and a valid token, none otherwise. -/
def authMiddleware (jwtParse : String → String → Option String) (secret : String)
    (next : HttpRequest → Response) (r : HttpRequest) : Served :=
  if r.Authorization = "" then
    { response := httpError "unauthorized" 401, forwarded := [] }
  else if scanBearer r.Authorization = "" then
    { response := httpError "unauthorized" 401, forwarded := [] }
  else
    match jwtParse secret (scanBearer r.Authorization) with
    | none => { response := httpError "unauthorized" 401, forwarded := [] }
    | some subject =>
      { response := next { r with userID := some subject },
        forwarded := [{ r with userID := some subject }] }

/-! ## Admission validator (`webhook/main.go`, lines 28-99) -/

/-- The struct `admissionv1.AdmissionRequest`: `Kind` is `req.Kind.Kind` and
`Object` what `json.Unmarshal(req.Object.Raw, &pod)` yields, none when it fails. -/
structure AdmissionRequest where
  UID : String
  Kind : String
  Operation : String
  Object : Option Pod
  deriving DecidableEq, Repr

/-- The struct `admissionv1.AdmissionResponse`: `Result` is the message of the
status, none when the status is nil. -/
structure AdmissionResponse where
  UID : String
  Allowed : Bool
  Result : Option String
  deriving DecidableEq, Repr

/-- The struct `admissionv1.AdmissionReview`. -/
structure AdmissionReview where
  Request : Option AdmissionRequest
  Response : Option AdmissionResponse
  deriving DecidableEq, Repr

/-- The body of a request to the validator: unreadable, not a review, or a review. -/
inductive ReviewBody where
  | unreadable
  | malformed
  | review (r : AdmissionReview)
  deriving DecidableEq, Repr

/-- What the validator answers: an error of `http.Error` or the review with its
response set. -/
inductive Reply where
  | error (status : Nat) (msg : String)
  | review (r : AdmissionReview)
  deriving DecidableEq, Repr

/-- The checks of one container (lines 70-79) on the decision so far. -/
def checkContainer (d : Bool × String) (c : Container) : Bool × String :=
  match c.SecurityContext with
  | none => d
  | some sc =>
    let d1 := if sc.AllowPrivilegeEscalation = some true
      then (false, "allowPrivilegeEscalation must be false") else d
    if sc.ReadOnlyRootFilesystem = some false
      then (false, "readOnlyRootFilesystem must be true") else d1

/-- The checks of a decoded pod (lines 57-80): the decision starts as allowed with
an empty message and every failed check overwrites it. -/
def checkPod (requiredRuntime : String) (pod : Pod) : Bool × String :=
  let d0 : Bool × String := (true, "")
  let d1 :=
    if requiredRuntime ≠ "" then
      match pod.Spec.RuntimeClassName with
      | none => (false, "pod must set RuntimeClassName=" ++ requiredRuntime)
      | some rc =>
        if rc ≠ requiredRuntime
          then (false, "pod must set RuntimeClassName=" ++ requiredRuntime) else d0
    else d0
  let d2 := if pod.Spec.AutomountServiceAccountToken = some true
    then (false, "automountServiceAccountToken must be disabled") else d1
  pod.Spec.Containers.foldl checkContainer d2

/-- The values of `allowed` and `message` at line 84. -/
def decision (requiredRuntime : String) (req : AdmissionRequest) : Bool × String :=
  if req.Kind = "Pod" ∧ (req.Operation = "CREATE" ∨ req.Operation = "UPDATE") then
    match req.Object with
    | none => (false, "could not decode pod")
    | some pod => checkPod requiredRuntime pod
  else (true, "")

/-- The handler `admitPods`, with the value of the package variable
`requiredRuntime`. Encoding the review, a value of plain structs and strings, does
not fail, so the branch of line 93 is never taken. -/
def admitPods (requiredRuntime : String) (body : ReviewBody) : Reply :=
  match body with
  | .unreadable => .error 400 "could not read body"
  | .malformed => .error 400 "could not parse admission review"
  | .review review =>
    match review.Request with
    | none => .error 400 "no request in review"
    | some req =>
      let d := decision requiredRuntime req
      .review { review with
        Response := some
          { UID := req.UID, Allowed := d.1, Result := if d.1 then none else some d.2 } }

/-- The messages of the rules a container violates, in the order of the checks:
with a security context set, privilege escalation set to true, then the read-only
root file system set to false. -/
def containerViolations (c : Container) : List String :=
  match c.SecurityContext with
  | none => []
  | some sc =>
    (if sc.AllowPrivilegeEscalation = some true
      then ["allowPrivilegeEscalation must be false"] else []) ++
    (if sc.ReadOnlyRootFilesystem = some false
      then ["readOnlyRootFilesystem must be true"] else [])

/-- The rules of the validator in the order of the specification, each with the
message of its violation: the runtime class, the token auto-mount, then the
security contexts of the containers in their order. -/
def violations (requiredRuntime : String) (pod : Pod) : List String :=
  (if requiredRuntime ≠ "" ∧ pod.Spec.RuntimeClassName ≠ some requiredRuntime
    then ["pod must set RuntimeClassName=" ++ requiredRuntime] else []) ++
  (if pod.Spec.AutomountServiceAccountToken = some true
    then ["automountServiceAccountToken must be disabled"] else []) ++
  pod.Spec.Containers.flatMap containerViolations

/-- A decision overwritten by the last of a list of violations, if there is one. -/
def overwrite (d : Bool × String) (msgs : List String) : Bool × String :=
  match msgs.getLast? with
  | none => d
  | some m => (false, m)

/-! ## Concrete inputs of the examples -/

/-- The submission of scenario 1 of the specification. -/
def helloPython : RunRequest :=
  { Language := "python", Files := [("main.py", "print(\"hi\")")], Stdin := "",
    TimeLimit := 3, MemoryLimit := 0 }

/-- An environment in which no variable is set. -/
def noEnv : String → String := fun _ => ""

/-- A pod of the runner whose container `runner` ended with exit code 0. -/
def runnerPod : Pod :=
  { Name := "runner-job-1-abcde",
    Spec := buildPodSpec "coderipper/runner-python:latest"
      [{ Name := "submission", Source := .configMap "submission-1" }] [],
    ContainerStatuses := [{ Name := "runner", Terminated := some 0 }] }

/-- A cluster in which every call succeeds and the Job is complete at the second
poll. -/
def calmCluster : K8sWorld :=
  { inClusterConfig := none, kubeconfig := none, newClient := none,
    s3New := none, tarHeader := fun _ => none, tarWrite := fun _ => none,
    putObject := none, presign := .ok "https://store.local/submission-2.tar",
    cmTag := 1, objTag := 2, jobTag := 3,
    cmCreate := none, cmDelete := none, jobCreate := none,
    polls := [.ok [], .ok [{ Type_ := "Complete", Status := "True" }]],
    podList := .ok [runnerPod], logs := .ok "hi\n" }

/-- A pod spec with one container `app` and the given runtime class, token
auto-mount and security context. -/
def podWith (rc : Option String) (automount : Option Bool) (sc : Option SecurityContext) :
    Pod :=
  { Name := "web-0",
    Spec :=
      { ServiceAccountName := "default", RestartPolicy := "Always", HostNetwork := false,
        RuntimeClassName := rc, AutomountServiceAccountToken := automount,
        Containers := [
          { Name := "app", Image := "nginx:1.25", Command := [], Args := [],
            VolumeMounts := [], Limits := [], Requests := [], SecurityContext := sc }],
        InitContainers := [], Volumes := [] },
    ContainerStatuses := [] }

/-- A pod whose container sets a security context that forbids privilege
escalation and leaves the read-only root file system unset. -/
def laxPod : Pod :=
  podWith none none (some
    { AllowPrivilegeEscalation := some false, ReadOnlyRootFilesystem := none,
      RunAsNonRoot := none, SeccompProfile := none })

/-- The pod of scenario 6 of the specification: its only violation is
`allowPrivilegeEscalation=true`. -/
def escalatingPod : Pod :=
  podWith none (some false) (some
    { AllowPrivilegeEscalation := some true, ReadOnlyRootFilesystem := some true,
      RunAsNonRoot := none, SeccompProfile := none })

/-- A pod that violates two rules: it sets no runtime class and mounts the
service-account token. -/
def doubleFaultPod : Pod := podWith none (some true) none

/-- The admission review of a request to create the pod. -/
def createReview (pod : Pod) : AdmissionReview :=
  { Request := some { UID := "705ab4f5", Kind := "Pod", Operation := "CREATE",
                      Object := some pod },
    Response := none }

/-- A host on which every call succeeds and the program prints `hi`. -/
def calmHost : HostWorld :=
  { mkdirTemp := .ok ["tmp", "coderipper-native-1"],
    mkdirAll := fun _ => none, writeFile := fun _ => none,
    compile := ("", none),
    run := { stdout := "hi\n", stderr := "", err := none, deadline := false } }

/-- A submission with a file name that climbs out of its directory. -/
def climbingRequest : RunRequest :=
  { Language := "bash", Files := [("../evil.sh", "echo pwned")], Stdin := "",
    TimeLimit := 5, MemoryLimit := 134217728 }

/-- A submission with an absolute file name and a nested relative one. -/
def rootedRequest : RunRequest :=
  { Language := "bash", Files := [("/etc/cron.d/job", "x"), ("src/./main.sh", "echo hi")],
    Stdin := "", TimeLimit := 5, MemoryLimit := 134217728 }

/-- The surroundings of a request in the given runner mode, on the calm host and
the calm cluster. -/
def calmWorld (mode : String) : World :=
  { env := fun k => if k = "RUNNER_MODE" then mode else "", now := 0,
    host := calmHost, k8s := calmCluster }

/-- A cluster on which the Job never reaches a terminal condition: the deadline
fires after two polls. -/
def stalledCluster : K8sWorld :=
  { calmCluster with polls := [.ok [], .ok [{ Type_ := "Complete", Status := "False" }]] }

/-- A cluster on which the Job fails and the log stream of its pod cannot be
opened. -/
def muteCluster : K8sWorld :=
  { calmCluster with
    polls := [.ok [{ Type_ := "Failed", Status := "True" }]],
    logs := .error "container not found" }

/-- A host on which the program is killed when the deadline fires. -/
def hungHost : HostWorld :=
  { calmHost with
    run := { stdout := "", stderr := "", err := some (.exit (-1)), deadline := true } }

/-- The surroundings of a request whose program does not end before the deadline:
the hung host and the stalled cluster, in the given runner mode. -/
def stalledWorld (mode : String) : World :=
  { calmWorld mode with host := hungHost, k8s := stalledCluster }

/-- A request of an authenticated caller that carries the submission. -/
def requestOf (req : RunRequest) : HttpRequest :=
  { RemoteAddr := "10.0.0.7:5123", RemoteHost := "10.0.0.7", body := some req,
    userID := some "user-1" }

/-- A cluster on which the Job completes and the pod list comes back empty. -/
def emptyPodsCluster : K8sWorld :=
  { calmCluster with podList := .ok [] }

/-- A token library that accepts one token under the secret of
`TestAuthMiddleware`, with the subject `user-1`. -/
def testJwtParse (secret token : String) : Option String :=
  if secret = "testsecret" ∧ token = "header.claims.signature" then some "user-1" else none

/-- The inner handler of `TestAuthMiddleware`: it writes `ok`. -/
def okHandler (_r : HttpRequest) : Response := { status := 200, body := .text "ok" }

/-- A request with the given value of the header `Authorization`. -/
def requestWithHeader (h : String) : HttpRequest :=
  { RemoteAddr := "192.0.2.1:1234", RemoteHost := "192.0.2.1", body := none, userID := none,
    Authorization := h }

/-- The language tags the dispatch table of the specification lists. -/
def listedTags : List String :=
  ["python", "python3", "javascript", "js", "node", "typescript", "ts", "go", "golang",
   "java", "c", "cpp", "c++", "rust", "ruby", "php", "bash", "sh", "powershell"]

/-- A cluster on which the Job fails before the container `runner` ends (an init
container failed): the status of `runner` has no terminated state. -/
def failedJobCluster : K8sWorld :=
  { calmCluster with
    polls := [.ok [{ Type_ := "Failed", Status := "True" }]],
    podList := .ok [{ runnerPod with
      ContainerStatuses := [{ Name := "runner", Terminated := none }] }],
    logs := .ok "" }

/-- A cluster on which the Job fails and the listed pod has no container status. -/
def failedJobNoStatusCluster : K8sWorld :=
  { failedJobCluster with podList := .ok [{ runnerPod with ContainerStatuses := [] }] }

/-- An environment in which the object-store endpoint is configured. -/
def storeEnv : String → String := fun k => if k = "S3_ENDPOINT" then "minio:9000" else ""

/-- The submission of scenario 5 of the specification in small: one file of 300000
bytes. -/
def bulkyRequest : RunRequest :=
  { Language := "python", Files := [("data.bin", String.mk (List.replicate 300000 'x'))],
    Stdin := "", TimeLimit := 5, MemoryLimit := 134217728 }

/-- A submission whose files hold 262144 bytes, the threshold itself. -/
def brimRequest : RunRequest :=
  { Language := "python",
    Files := [("a.bin", String.mk (List.replicate 262143 'x')), ("b.txt", "y")],
    Stdin := "", TimeLimit := 5, MemoryLimit := 134217728 }

/-! # Properties

## Rate limiter -/

theorem allow_max (rl : RateLimiter) (ip : String) (now : Int) :
    (rl.allow ip now).2.max = rl.max := by
  unfold RateLimiter.allow
  cases rl.items ip with
  | none => rfl
  | some ci =>
    simp only
    split_ifs <;> rfl

theorem allow_items_other (rl : RateLimiter) (ip id : String) (now : Int) (h : id ≠ ip) :
    (rl.allow id now).2.items ip = rl.items ip := by
  have hne : ¬ ip = id := fun e => h e.symm
  unfold RateLimiter.allow
  cases rl.items id with
  | none => simp [RateLimiter.set, hne]
  | some ci =>
    simp only
    split_ifs <;> simp [RateLimiter.set, hne]

theorem allowedCount_cons (ip id : String) (b : Bool) (ds : List (String × Bool)) :
    allowedCount ip ((id, b) :: ds)
      = (if id = ip ∧ b = true then 1 else 0) + allowedCount ip ds := by
  unfold allowedCount
  by_cases h : id = ip <;> cases b <;> simp [List.filter_cons, h, Nat.add_comm]

/-- The bound on the calls of `ip` still to be allowed in the current window. -/
theorem run_allowed_le (calls : List (String × Int)) :
    ∀ (rl : RateLimiter) (ip : String), rl.withinWindow ip calls = true →
      (allowedCount ip (rl.run calls).1 : Int) ≤ rl.remaining ip := by
  induction calls with
  | nil =>
    intro rl ip _
    unfold RateLimiter.remaining
    cases rl.items ip <;> simp only [RateLimiter.run, allowedCount, List.filter_nil, List.length_nil] <;>
      split_ifs <;> omega
  | cons c rest ih =>
    obtain ⟨id, now⟩ := c
    intro rl ip h
    simp only [RateLimiter.withinWindow, Bool.and_eq_true] at h
    obtain ⟨h1, h2⟩ := h
    have ih' := ih (rl.allow id now).2 ip h2
    unfold RateLimiter.remaining at ih' ⊢
    simp only [RateLimiter.run, allowedCount_cons]
    by_cases hid : id = ip
    · subst hid
      rw [allow_max] at ih'
      simp only [if_true] at h1
      unfold RateLimiter.allow at ih' ⊢
      cases hb : rl.items id with
      | none =>
        simp only [hb, RateLimiter.set, if_true] at ih' ⊢
        simp only [true_and, if_true]
        split_ifs at ih' ⊢ <;> omega
      | some ci =>
        simp only [hb, Bool.not_eq_true', Bool.not_eq_eq_eq_not, Bool.not_true] at h1
        simp only [hb, h1] at ih' ⊢
        simp only [Bool.false_eq_true, if_false] at ih' ⊢
        by_cases hc : ci.count ≥ rl.max
        · simp only [hc, if_true, hb] at ih' ⊢
          simp only [Bool.false_eq_true, and_false, if_false]
          split_ifs at ih' ⊢ <;> omega
        · simp only [hc, if_false, RateLimiter.set, if_true] at ih' ⊢
          simp only [and_self, if_true]
          split_ifs at ih' ⊢ <;> omega
    · rw [allow_max, allow_items_other rl ip id now hid] at ih'
      simp only [hid, false_and, if_false]
      simpa using ih'


/-- C1, as stated, fails at `max = 0`: the call that opens a window is allowed
without a look at `max`, so one call inside the window returns true although
`max` is zero. -/
theorem rate_limit_zero_max_allows_first :
    (0 : Int) ≤ 0 ∧
    (newRateLimiter 0).withinWindow "1.2.3.4" [("1.2.3.4", 0)] = true ∧
    ¬ ((allowedCount "1.2.3.4" ((newRateLimiter 0).run [("1.2.3.4", 0)]).1 : Int) ≤ 0) := by
  decide

/-- C1 (amended): for a limiter built by `newRateLimiter max`, an identity `ip` and
a sequence of `allow` calls (of any identities) in which no call of `ip` is made
after the window end of its bucket, at most `max` calls of `ip` return true when
`max ≥ 1`, and at most one (the call that opens the window) when `max ≤ 0`. -/
theorem rate_limit_window_bound (max : Int) (ip : String) (calls : List (String × Int))
    (h : (newRateLimiter max).withinWindow ip calls = true) :
    (1 ≤ max → (allowedCount ip ((newRateLimiter max).run calls).1 : Int) ≤ max) ∧
    (max ≤ 0 → (allowedCount ip ((newRateLimiter max).run calls).1 : Int) ≤ 1) := by
  have hb := run_allowed_le calls (newRateLimiter max) ip h
  simp only [RateLimiter.remaining, newRateLimiter] at hb
  constructor
  · intro h1
    rw [if_pos h1] at hb
    exact hb
  · intro h0
    rw [if_neg (by omega)] at hb
    exact hb

/-- Witness of C1: the limiter of `TestRateLimiterAllow` (`max = 2`), three calls of
one identity inside one window with a call of another identity in between. -/
theorem rate_limit_window_bound_witness :
    (newRateLimiter 2).withinWindow "1.2.3.4"
        [("1.2.3.4", 0), ("1.2.3.4", 1), ("5.6.7.8", 1), ("1.2.3.4", Minute)] = true ∧
    (allowedCount "1.2.3.4" ((newRateLimiter 2).run
        [("1.2.3.4", 0), ("1.2.3.4", 1), ("5.6.7.8", 1), ("1.2.3.4", Minute)]).1 : Int) ≤ 2 :=
  ⟨by decide, (rate_limit_window_bound 2 "1.2.3.4"
      [("1.2.3.4", 0), ("1.2.3.4", 1), ("5.6.7.8", 1), ("1.2.3.4", Minute)] (by decide)).1 (by decide)⟩

/-- C2: the three branches of `allow`. With no bucket for `ip`, or with `now` after
the window end of the bucket, the bucket becomes `count = 1`,
`windowEnd = now + Minute` and the call returns true; otherwise with
`count ≥ max` the call returns false and the limiter is unchanged; otherwise the
count grows by one, the window end stays and the call returns true. In every
branch `max` and the buckets of other identities are unchanged, and after a
denial a call made after the window end is allowed and opens a new window. -/
theorem allow_behaviour (rl : RateLimiter) (ip : String) (now : Int) :
    ((rl.items ip = none ∨ ∃ ci, rl.items ip = some ci ∧ After now ci.windowEnd = true) →
      (rl.allow ip now).1 = true ∧
      (rl.allow ip now).2.items ip = some { count := 1, windowEnd := now + Minute }) ∧
    (∀ ci, rl.items ip = some ci → After now ci.windowEnd = false → ci.count ≥ rl.max →
      (rl.allow ip now).1 = false ∧ (rl.allow ip now).2 = rl) ∧
    (∀ ci, rl.items ip = some ci → After now ci.windowEnd = false → ci.count < rl.max →
      (rl.allow ip now).1 = true ∧
      (rl.allow ip now).2.items ip
        = some { count := ci.count + 1, windowEnd := ci.windowEnd }) ∧
    ((rl.allow ip now).2.max = rl.max ∧
      ∀ other, other ≠ ip → (rl.allow ip now).2.items other = rl.items other) ∧
    ((rl.allow ip now).1 = false →
      ∃ ci, (rl.allow ip now).2.items ip = some ci ∧
        ∀ later, After later ci.windowEnd = true →
          ((rl.allow ip now).2.allow ip later).1 = true ∧
          ((rl.allow ip now).2.allow ip later).2.items ip
            = some { count := 1, windowEnd := later + Minute }) := by
  refine ⟨?_, ?_, ?_, ⟨allow_max rl ip now, ?_⟩, ?_⟩
  · rintro (h | ⟨ci, h, ha⟩)
    · simp [RateLimiter.allow, h, RateLimiter.set]
    · simp [RateLimiter.allow, h, ha, RateLimiter.set]
  · intro ci h ha hc
    simp [RateLimiter.allow, h, ha, hc]
  · intro ci h ha hc
    have hc' : ¬ rl.max ≤ ci.count := by omega
    simp [RateLimiter.allow, h, ha, hc', RateLimiter.set]
  · intro other ho
    exact allow_items_other rl other ip now (fun e => ho e.symm)
  · intro hd
    unfold RateLimiter.allow at hd ⊢
    cases hb : rl.items ip with
    | none => simp [hb] at hd
    | some ci =>
      simp only [hb] at hd ⊢
      by_cases ha : After now ci.windowEnd = true
      · simp [ha] at hd
      · by_cases hc : ci.count ≥ rl.max
        · refine ⟨ci, by simp [ha, hc, hb], ?_⟩
          intro later hl
          simp [ha, hc, hb, hl, RateLimiter.set]
        · simp [ha, hc] at hd

/-- The run of `TestRateLimiterAllow`, read through C2: with `max = 2` the third
call inside the window is denied and leaves the limiter unchanged, and a call
after the window end is allowed again. -/
theorem allow_behaviour_witness :
    (((newRateLimiter 2).run [("1.2.3.4", 0), ("1.2.3.4", 1)]).2.allow "1.2.3.4" 2).1 = false ∧
    ((((newRateLimiter 2).run [("1.2.3.4", 0), ("1.2.3.4", 1)]).2.allow "1.2.3.4" 2).2.allow
        "1.2.3.4" (Minute + 1)).1 = true := by
  have h := allow_behaviour ((newRateLimiter 2).run [("1.2.3.4", 0), ("1.2.3.4", 1)]).2 "1.2.3.4" 2
  have hd : (((newRateLimiter 2).run [("1.2.3.4", 0), ("1.2.3.4", 1)]).2.allow "1.2.3.4" 2).1
      = false := by decide
  refine ⟨hd, ?_⟩
  obtain ⟨ci, hci, hlater⟩ := h.2.2.2.2 hd
  have hci' : (((newRateLimiter 2).run [("1.2.3.4", 0), ("1.2.3.4", 1)]).2.allow
      "1.2.3.4" 2).2.items "1.2.3.4" = some { count := 2, windowEnd := Minute } := by decide
  rw [hci'] at hci
  cases hci
  exact (hlater (Minute + 1) (by decide)).1

/-! ## Submission normaliser -/

/-- The two assignments of lines 119-124 bring every integer into [1, 60]: 5 for
an input of at most 0, 60 for an input above 60, the input itself otherwise. -/
theorem timeLimit_normalized (req : RunRequest) :
    (1 ≤ (applyDefaults req).TimeLimit ∧ (applyDefaults req).TimeLimit ≤ 60) ∧
    (req.TimeLimit ≤ 0 → (applyDefaults req).TimeLimit = 5) ∧
    (60 < req.TimeLimit → (applyDefaults req).TimeLimit = 60) ∧
    (0 < req.TimeLimit → req.TimeLimit ≤ 60 → (applyDefaults req).TimeLimit = req.TimeLimit) ∧
    (req.TimeLimit = 999 → (applyDefaults req).TimeLimit = 60) := by
  unfold applyDefaults
  simp only
  refine ⟨?_, ?_, ?_, ?_, ?_⟩ <;> split_ifs <;> simp_all <;> omega

/-- The Kubernetes branch hands the request it is given to `submitK8sJob`, with the
deadline made of its time limit. -/
theorem handleK8s_dispatched (w : World) (rl : RateLimiter) (r : HttpRequest)
    (req : RunRequest) :
    (handleK8s w rl r req).dispatched
        = some { runner := "k8s", req := req, deadline := req.TimeLimit * 1000000000 } ∧
    (handleK8s w rl r req).k8sEffects
        = (submitK8sJob w.k8s w.env req (runnerImage req) (req.TimeLimit * 1000000000)
            (if w.env "K8S_NAMESPACE" = "" then "default" else w.env "K8S_NAMESPACE")).trace := by
  unfold handleK8s
  simp only
  split <;> exact ⟨rfl, rfl⟩

theorem handleDocker_dispatched (w : World) (rl : RateLimiter) (r : HttpRequest)
    (req : RunRequest) :
    (∀ e, w.host.mkdirTemp = .error e → (handleDocker w rl r req).dispatched = none) ∧
    (∀ tmpDir, w.host.mkdirTemp = .ok tmpDir →
      (handleDocker w rl r req).dispatched
        = some { runner := "docker", req := req, deadline := req.TimeLimit * 1000000000 } ∧
      (handleDocker w rl r req).hostEffects
        = dockerWriteFiles tmpDir req.Files ++ [.exec (dockerArgv req tmpDir)] ++
            [.removeAll tmpDir]) := by
  unfold handleDocker
  constructor
  · intro e he
    simp only [he]
  · intro tmpDir hd
    simp only [hd]
    split <;> exact ⟨rfl, rfl⟩

/-- What `runHandler` does with a request that passes the rate limiter and
decodes: it hands the request after the defaults and caps to the runner of the
mode. -/
theorem runHandler_decoded (w : World) (rl : RateLimiter) (r : HttpRequest)
    (decoded : RunRequest) (ha : (rl.allow (rateKey r) w.now).1 = true)
    (hb : r.body = some decoded) :
    runHandler w rl r =
      if (if w.env "RUNNER_MODE" = "" then "native" else w.env "RUNNER_MODE") = "k8s" then
        handleK8s w (rl.allow (rateKey r) w.now).2 r (applyDefaults decoded)
      else if (if w.env "RUNNER_MODE" = "" then "native" else w.env "RUNNER_MODE") = "native" then
        handleNative w (rl.allow (rateKey r) w.now).2 (applyDefaults decoded)
      else handleDocker w (rl.allow (rateKey r) w.now).2 r (applyDefaults decoded) := by
  unfold runHandler
  simp only [ha, hb, Bool.true_eq_false, if_false]

/-- Every hand-over of `runHandler` carries the decoded request after the defaults
and caps, with the deadline made of its time limit, and the runner of the mode
runs with that request. -/
theorem runHandler_dispatched (w : World) (rl : RateLimiter) (r : HttpRequest) (d : Dispatch)
    (hd : (runHandler w rl r).dispatched = some d) :
    ∃ decoded, r.body = some decoded ∧ d.req = applyDefaults decoded ∧
      d.deadline = d.req.TimeLimit * 1000000000 ∧
      ((d.runner = "k8s" ∧ (runHandler w rl r).k8sEffects
          = (submitK8sJob w.k8s w.env d.req (runnerImage d.req) d.deadline
              (if w.env "K8S_NAMESPACE" = "" then "default" else w.env "K8S_NAMESPACE")).trace) ∨
       (d.runner = "native" ∧
          (runHandler w rl r).response.body = .native (executeNative w.host d.req).1 ∧
          (runHandler w rl r).hostEffects = (executeNative w.host d.req).2) ∨
       (d.runner = "docker" ∧ ∃ tmpDir, w.host.mkdirTemp = .ok tmpDir ∧
          (runHandler w rl r).hostEffects
            = dockerWriteFiles tmpDir d.req.Files ++ [.exec (dockerArgv d.req tmpDir)] ++
                [.removeAll tmpDir])) := by
  by_cases ha : (rl.allow (rateKey r) w.now).1 = true
  · rcases hb : r.body with _ | decoded
    · simp [runHandler, ha, hb] at hd
    · rw [runHandler_decoded w rl r decoded ha hb] at hd ⊢
      refine ⟨decoded, rfl, ?_⟩
      generalize (if w.env "RUNNER_MODE" = "" then "native" else w.env "RUNNER_MODE") = mode
        at hd ⊢
      by_cases hk : mode = "k8s"
      · simp only [hk, if_true] at hd ⊢
        have h := handleK8s_dispatched w (rl.allow (rateKey r) w.now).2 r (applyDefaults decoded)
        rw [h.1] at hd
        injection hd with hd
        subst hd
        exact ⟨rfl, rfl, Or.inl ⟨rfl, h.2⟩⟩
      · by_cases hn : mode = "native"
        · simp only [hk, hn, if_true, if_false] at hd ⊢
          simp only [handleNative] at hd
          injection hd with hd
          subst hd
          exact ⟨rfl, rfl, Or.inr (Or.inl ⟨rfl, rfl, rfl⟩)⟩
        · simp only [hk, hn, if_false] at hd ⊢
          have h := handleDocker_dispatched w (rl.allow (rateKey r) w.now).2 r
            (applyDefaults decoded)
          rcases hm : w.host.mkdirTemp with e | tmpDir
          · rw [h.1 e hm] at hd
            cases hd
          · rw [(h.2 tmpDir hm).1] at hd
            injection hd with hd
            subst hd
            exact ⟨rfl, rfl, Or.inr (Or.inr ⟨rfl, tmpDir, rfl, (h.2 tmpDir hm).2⟩)⟩
  · simp [runHandler, ha] at hd

/-- A request that passes the rate limiter and decodes is handed to a runner,
unless the container runner cannot make its temporary directory. -/
theorem runHandler_dispatches (w : World) (rl : RateLimiter) (r : HttpRequest)
    (decoded : RunRequest) (ha : (rl.allow (rateKey r) w.now).1 = true)
    (hb : r.body = some decoded)
    (hm : w.env "RUNNER_MODE" = "k8s" ∨ w.env "RUNNER_MODE" = "native" ∨
      w.env "RUNNER_MODE" = "" ∨ ∃ tmpDir, w.host.mkdirTemp = .ok tmpDir) :
    ∃ runner, (runHandler w rl r).dispatched
      = some { runner := runner, req := applyDefaults decoded,
               deadline := (applyDefaults decoded).TimeLimit * 1000000000 } := by
  rw [runHandler_decoded w rl r decoded ha hb]
  by_cases hk : (if w.env "RUNNER_MODE" = "" then "native" else w.env "RUNNER_MODE") = "k8s"
  · rw [if_pos hk]
    exact ⟨"k8s", (handleK8s_dispatched _ _ _ _).1⟩
  · rw [if_neg hk]
    by_cases hn : (if w.env "RUNNER_MODE" = "" then "native" else w.env "RUNNER_MODE") = "native"
    · rw [if_pos hn]
      exact ⟨"native", rfl⟩
    · rw [if_neg hn]
      rcases hm with h | h | h | ⟨tmpDir, h⟩
      · simp [h] at hk
      · simp [h] at hn
      · simp [h] at hn
      · exact ⟨"docker", ((handleDocker_dispatched _ _ _ _).2 tmpDir h).1⟩

/-- C3: for every request and every integer time limit of its decoded submission
(also at most 0, also above 60), whenever the run handler hands the submission to
a runner, the time limit it hands over lies in [1, 60]: it is 5 when the input is
at most 0, 60 when the input is above 60 (999 becomes 60), and the input itself
otherwise; the deadline of the run is that many seconds, the runner of the mode
runs with that request, and every request that passes the rate limiter and
decodes is handed over (in Docker mode when the temporary directory is made). -/
theorem dispatch_time_limit (w : World) (rl : RateLimiter) (r : HttpRequest) :
    (∀ d, (runHandler w rl r).dispatched = some d →
      ∃ decoded, r.body = some decoded ∧
        (1 ≤ d.req.TimeLimit ∧ d.req.TimeLimit ≤ 60) ∧
        d.deadline = d.req.TimeLimit * 1000000000 ∧
        (decoded.TimeLimit ≤ 0 → d.req.TimeLimit = 5) ∧
        (60 < decoded.TimeLimit → d.req.TimeLimit = 60) ∧
        (0 < decoded.TimeLimit → decoded.TimeLimit ≤ 60 → d.req.TimeLimit = decoded.TimeLimit) ∧
        ((d.runner = "k8s" ∧ (runHandler w rl r).k8sEffects
            = (submitK8sJob w.k8s w.env d.req (runnerImage d.req) d.deadline
                (if w.env "K8S_NAMESPACE" = "" then "default"
                  else w.env "K8S_NAMESPACE")).trace) ∨
         (d.runner = "native" ∧
            (runHandler w rl r).response.body = .native (executeNative w.host d.req).1 ∧
            (runHandler w rl r).hostEffects = (executeNative w.host d.req).2) ∨
         (d.runner = "docker" ∧ ∃ tmpDir, w.host.mkdirTemp = .ok tmpDir ∧
            (runHandler w rl r).hostEffects
              = dockerWriteFiles tmpDir d.req.Files ++ [.exec (dockerArgv d.req tmpDir)] ++
                  [.removeAll tmpDir]))) ∧
    (∀ decoded, (rl.allow (rateKey r) w.now).1 = true → r.body = some decoded →
      (w.env "RUNNER_MODE" = "k8s" ∨ w.env "RUNNER_MODE" = "native" ∨
        w.env "RUNNER_MODE" = "" ∨ ∃ tmpDir, w.host.mkdirTemp = .ok tmpDir) →
      ∃ d, (runHandler w rl r).dispatched = some d) := by
  constructor
  · intro d hd
    obtain ⟨decoded, hb, hreq, hdl, hrun⟩ := runHandler_dispatched w rl r d hd
    have ht := timeLimit_normalized decoded
    rw [← hreq] at ht
    exact ⟨decoded, hb, ht.1, hdl, ht.2.1, ht.2.2.1, ht.2.2.2.1, hrun⟩
  · intro decoded ha hb hm
    obtain ⟨runner, h⟩ := runHandler_dispatches w rl r decoded ha hb hm
    exact ⟨_, h⟩

/-- Witness of C3: scenario 3 of the specification in the three runner modes. A
submission with a time limit of 999 is handed over with 60 and a deadline of 60
seconds, and the native runner, killed at the deadline, reports 60 seconds. -/
theorem dispatch_time_limit_witness :
    (runHandler (calmWorld "k8s") (newRateLimiter 60)
        (requestOf { helloPython with TimeLimit := 999 })).dispatched
      = some { runner := "k8s",
               req := { helloPython with TimeLimit := 60, MemoryLimit := 134217728 },
               deadline := 60000000000 } ∧
    (runHandler (calmWorld "docker") (newRateLimiter 60)
        (requestOf { helloPython with TimeLimit := 999 })).dispatched
      = some { runner := "docker",
               req := { helloPython with TimeLimit := 60, MemoryLimit := 134217728 },
               deadline := 60000000000 } ∧
    (runHandler (stalledWorld "native") (newRateLimiter 60)
        (requestOf { helloPython with TimeLimit := 999 })).response.body
      = .native { Stdout := "", Stderr := "Execution timed out after 60 seconds",
                  ExitCode := 124, Success := false, Language := "python" } ∧
    (∀ d, (runHandler (stalledWorld "native") (newRateLimiter 60)
        (requestOf { helloPython with TimeLimit := 999 })).dispatched = some d →
      d.req.TimeLimit = 60) := by
  refine ⟨by decide, by decide, by decide, ?_⟩
  intro d hd
  obtain ⟨decoded, hb, -, -, -, h60, -, -⟩ := (dispatch_time_limit (stalledWorld "native")
    (newRateLimiter 60) (requestOf { helloPython with TimeLimit := 999 })).1 d hd
  have hdec : decoded = { helloPython with TimeLimit := 999 } := by
    have : (requestOf { helloPython with TimeLimit := 999 }).body
        = some { helloPython with TimeLimit := 999 } := rfl
    rw [this] at hb
    injection hb with hb
    exact hb.symm
  exact h60 (by rw [hdec]; decide)

/-! ## Transport selection -/

theorem supervise_trace_plain (ns jobName : String) (n : Nat) :
    ∀ e ∈ List.replicate n (K8sEffect.getJob ns jobName),
      e.isConfigMap = false ∧ e.isObjectStore = false := by
  intro e he
  rw [List.eq_of_mem_replicate he]
  exact ⟨rfl, rfl⟩

theorem collectOutput_trace_plain (w : K8sWorld) (ns : String) :
    ∀ e ∈ (collectOutput w ns).trace, e.isConfigMap = false ∧ e.isObjectStore = false := by
  intro e he
  unfold collectOutput at he
  rcases hp : w.podList with _ | pods
  · simp only [hp, List.mem_singleton] at he
    subst he
    exact ⟨rfl, rfl⟩
  · rcases pods with _ | ⟨pod, rest⟩
    · simp only [hp, List.mem_singleton] at he
      subst he
      exact ⟨rfl, rfl⟩
    · rcases hl : w.logs with _ | text <;>
        simp only [hp, hl, List.mem_cons, List.mem_singleton, List.not_mem_nil, or_false] at he <;>
        rcases he with rfl | rfl <;> exact ⟨rfl, rfl⟩

/-- Creating, supervising and reading a Job calls neither the ConfigMap API nor the
object store. -/
theorem runJob_trace_plain (w : K8sWorld) (image ns : String) (vols : List Volume)
    (inits : List Container) :
    ∀ e ∈ (runJob w image ns vols inits).trace,
      e.isConfigMap = false ∧ e.isObjectStore = false := by
  intro e he
  unfold runJob at he
  rcases hj : w.jobCreate with _ | err
  · simp only [hj] at he
    rcases hs : (supervise w.polls).1 with _ | msg | _ <;>
      simp only [hs, List.mem_append, List.mem_cons, List.mem_singleton, List.not_mem_nil,
        or_false] at he
    · rcases he with (rfl | he) | rfl
      · exact ⟨rfl, rfl⟩
      · exact supervise_trace_plain _ _ _ e he
      · exact ⟨rfl, rfl⟩
    · rcases he with rfl | he
      · exact ⟨rfl, rfl⟩
      · exact supervise_trace_plain _ _ _ e he
    · rcases he with (rfl | he) | he
      · exact ⟨rfl, rfl⟩
      · exact supervise_trace_plain _ _ _ e he
      · exact collectOutput_trace_plain w ns e he
  · simp only [hj, List.mem_singleton] at he
    subst he
    exact ⟨rfl, rfl⟩

/-- The object-store branch calls the object store, and only it. -/
theorem s3Transport_trace (w : K8sWorld) (env : String → String) (req : RunRequest) :
    usesObjectStore (s3Transport w env req).2 = true ∧
    usesInline (s3Transport w env req).2 = false := by
  unfold s3Transport
  rcases h1 : w.s3New with _ | e1
  · rcases h2 : tarFiles w req.Files with _ | e2
    · rcases h3 : w.putObject with _ | e3
      · rcases h4 : w.presign with e4 | url <;>
          simp [h1, h2, h3, h4, usesObjectStore, usesInline, K8sEffect.isObjectStore,
            K8sEffect.isConfigMap]
      · simp [h1, h2, h3, usesObjectStore, usesInline, K8sEffect.isObjectStore,
          K8sEffect.isConfigMap]
    · simp [h1, h2, usesObjectStore, usesInline, K8sEffect.isObjectStore,
        K8sEffect.isConfigMap]
  · simp [h1, usesObjectStore, usesInline, K8sEffect.isObjectStore, K8sEffect.isConfigMap]

theorem runJob_usesInline (w : K8sWorld) (image ns : String) (vols : List Volume)
    (inits : List Container) : usesInline (runJob w image ns vols inits).trace = false := by
  unfold usesInline
  rw [List.any_eq_false]
  intro e he
  simp [(runJob_trace_plain w image ns vols inits e he).1]

theorem runJob_usesObjectStore (w : K8sWorld) (image ns : String) (vols : List Volume)
    (inits : List Container) :
    usesObjectStore (runJob w image ns vols inits).trace = false := by
  unfold usesObjectStore
  rw [List.any_eq_false]
  intro e he
  simp [(runJob_trace_plain w image ns vols inits e he).2]

theorem s3Transport_all_objectStore (w : K8sWorld) (env : String → String) (req : RunRequest) :
    ∀ e ∈ (s3Transport w env req).2, e.isObjectStore = true := by
  intro e he
  unfold s3Transport at he
  rcases h1 : w.s3New with _ | e1
  · rcases h2 : tarFiles w req.Files with _ | e2
    · rcases h3 : w.putObject with _ | e3
      · rcases h4 : w.presign with e4 | url <;>
          simp only [h1, h2, h3, h4, List.mem_append, List.mem_cons, List.mem_singleton,
            List.not_mem_nil, or_false] at he <;>
          rcases he with (rfl | rfl) | rfl | rfl <;> rfl
      · simp only [h1, h2, h3, List.mem_append, List.mem_cons, List.mem_singleton,
          List.not_mem_nil, or_false] at he
        rcases he with (rfl | rfl) | rfl <;> rfl
    · simp only [h1, h2, List.mem_cons, List.mem_singleton, List.not_mem_nil, or_false] at he
      rcases he with rfl | rfl <;> rfl
  · simp only [h1, List.mem_singleton] at he
    subst he
    rfl

/-- The only Job a run creates is the one built from the image, the volumes and
the init containers of its transport. -/
theorem runJob_createJob (w : K8sWorld) (image ns : String) (vols : List Volume)
    (inits : List Container) (job : Job) (ok : Bool)
    (h : K8sEffect.createJob job ok ∈ (runJob w image ns vols inits).trace) :
    job.Template = buildPodSpec image vols inits := by
  unfold runJob at h
  have hget : ∀ n name, K8sEffect.createJob job ok ∉ List.replicate n (K8sEffect.getJob ns name) := by
    intro n name hm
    have := List.eq_of_mem_replicate hm
    cases this
  have hcol : K8sEffect.createJob job ok ∉ (collectOutput w ns).trace := by
    intro hm
    unfold collectOutput at hm
    rcases hp : w.podList with _ | pods
    · simp [hp] at hm
    · rcases pods with _ | ⟨pod, rest⟩
      · simp [hp] at hm
      · rcases hl : w.logs with _ | text <;> simp [hp, hl] at hm
  rcases hj : w.jobCreate with _ | err
  · simp only [hj] at h
    rcases hs : (supervise w.polls).1 with _ | msg | _ <;>
      simp only [hs, List.mem_append, List.mem_cons, List.mem_singleton, List.not_mem_nil,
        or_false, K8sEffect.createJob.injEq, reduceCtorEq] at h
    · rcases h with ⟨h1, -⟩ | h
      · rw [h1]; rfl
      · exact absurd h (hget _ _)
    · rcases h with ⟨h1, -⟩ | h
      · rw [h1]; rfl
      · exact absurd h (hget _ _)
    · rcases h with (⟨h1, -⟩ | h) | h
      · rw [h1]; rfl
      · exact absurd h (hget _ _)
      · exact absurd h hcol
  · simp only [hj, List.mem_singleton, K8sEffect.createJob.injEq] at h
    rw [h.1]; rfl

theorem useS3_iff (env : String → String) (req : RunRequest) :
    useS3 env req = true ↔ 262144 < totalSize req.Files ∧ env "S3_ENDPOINT" ≠ "" := by
  simp [useS3, maxConfigMapSize]

/-- The calls a run with a cluster client makes follow the value of `useS3`. -/
theorem transport_by_total (w : K8sWorld) (env : String → String) (req : RunRequest)
    (image : String) (timeout : Int) (ns : String) (hclient : acquireClient w = none) :
    (usesInline (submitK8sJob w env req image timeout ns).trace = true ↔
      (totalSize req.Files ≤ 262144 ∨ env "S3_ENDPOINT" = "")) ∧
    (usesObjectStore (submitK8sJob w env req image timeout ns).trace = true ↔
      (262144 < totalSize req.Files ∧ env "S3_ENDPOINT" ≠ "")) := by
  have hiff := useS3_iff env req
  unfold submitK8sJob
  simp only [hclient]
  by_cases hs : useS3 env req = true
  · have hcond := hiff.mp hs
    have hnot : ¬ (totalSize req.Files ≤ 262144 ∨ env "S3_ENDPOINT" = "") := by
      rintro (h | h)
      · omega
      · exact hcond.2 h
    have htr := s3Transport_trace w env req
    simp only [hs, if_true]
    rcases hres : s3Transport w env req with ⟨res, tr⟩
    rw [hres] at htr
    rcases res with e | ⟨vols, inits⟩
    · simp only [htr.1, htr.2, hcond, hnot]
      simp [hcond.1, hcond.2]
    · simp only [usesInline, usesObjectStore, List.any_append] at htr ⊢
      have h1 := runJob_usesInline w image ns vols inits
      have h2 := runJob_usesObjectStore w image ns vols inits
      simp only [usesInline, usesObjectStore] at h1 h2
      simp only [htr.1, htr.2, h1, h2, hcond, hnot]
      simp [hcond.1, hcond.2]
  · have hcond : ¬ (262144 < totalSize req.Files ∧ env "S3_ENDPOINT" ≠ "") :=
      fun h => hs (hiff.mpr h)
    have hyes : totalSize req.Files ≤ 262144 ∨ env "S3_ENDPOINT" = "" := by
      by_cases ht : totalSize req.Files ≤ 262144
      · exact Or.inl ht
      · right
        by_contra hne
        exact hcond ⟨by omega, hne⟩
    simp only [hs, Bool.false_eq_true, if_false]
    rcases hc : w.cmCreate with _ | e
    · have h2 := runJob_usesObjectStore w image ns
        [{ Name := "submission", Source := .configMap ("submission-" ++ toString w.cmTag) }] []
      simp only [usesObjectStore] at h2
      simp only [usesInline, usesObjectStore, List.any_append, List.any_cons, List.any_nil,
        K8sEffect.isConfigMap, K8sEffect.isObjectStore, h2, hcond, hyes]
      simp
    · simp only [usesInline, usesObjectStore, List.any_cons, List.any_nil,
        K8sEffect.isConfigMap, K8sEffect.isObjectStore, hcond, hyes]
      simp

/-- The loop of lines 54-57 adds up the byte lengths of the file contents. -/
theorem totalSize_eq_sum (files : List (String × String)) :
    totalSize files = (files.map (fun f => f.2.utf8ByteSize)).sum := by
  induction files with
  | nil => rfl
  | cons f rest ih =>
    obtain ⟨name, v⟩ := f
    simp only [totalSize, List.map_cons, List.sum_cons, ih]

theorem utf8ByteSize_replicate (n : Nat) (c : Char) :
    (String.mk (List.replicate n c)).utf8ByteSize = n * c.utf8Size := by
  induction n with
  | zero => simp [String.utf8ByteSize, String.utf8ByteSize.go]
  | succ k ih =>
    simp only [List.replicate_succ, String.utf8ByteSize, String.utf8ByteSize.go] at ih ⊢
    rw [ih, Nat.succ_mul]

/-- The object-store branch, when it succeeds, yields one empty-directory volume
named `submission` and one init container named `fetch-submission`. -/
theorem s3Transport_ok (w : K8sWorld) (env : String → String) (req : RunRequest)
    (vols : List Volume) (inits : List Container) (tr : List K8sEffect)
    (h : s3Transport w env req = (.ok (vols, inits), tr)) :
    vols = [{ Name := "submission", Source := .emptyDir }] ∧
    inits.map (fun c => c.Name) = ["fetch-submission"] := by
  unfold s3Transport at h
  rcases h1 : w.s3New with _ | e1
  · rcases h2 : tarFiles w req.Files with _ | e2
    · rcases h3 : w.putObject with _ | e3
      · rcases h4 : w.presign with e4 | url
        · simp [h1, h2, h3, h4] at h
        · simp only [h1, h2, h3, h4, Prod.mk.injEq, Except.ok.injEq] at h
          obtain ⟨⟨hv, hi⟩, -⟩ := h
          subst hv hi
          exact ⟨rfl, rfl⟩
      · simp [h1, h2, h3] at h
    · simp [h1, h2] at h
  · simp [h1] at h

/-- C4: in every run of `submitK8sJob` that has a cluster client, with `total` the
sum of the byte lengths of the contents of all files of the submission, the inline
ConfigMap transport is used (the ConfigMap API is called, and a Job that is created
mounts the ConfigMap as its one volume, with no init container) exactly when
`total ≤ 262144` (the boundary included) or no object-store endpoint is
configured, and the object-store transport is used (the object store is called, and
a Job that is created mounts an empty directory filled by the init container
`fetch-submission`) exactly when `total > 262144` and the endpoint is configured;
nothing else (outcomes of calls, image, namespace, deadline) enters the choice. -/
theorem transport_choice (w : K8sWorld) (env : String → String) (req : RunRequest)
    (image : String) (timeout : Int) (ns : String) (hclient : acquireClient w = none) :
    (usesInline (submitK8sJob w env req image timeout ns).trace = true ↔
      ((req.Files.map (fun f => f.2.utf8ByteSize)).sum ≤ 262144 ∨ env "S3_ENDPOINT" = "")) ∧
    (usesObjectStore (submitK8sJob w env req image timeout ns).trace = true ↔
      (262144 < (req.Files.map (fun f => f.2.utf8ByteSize)).sum ∧ env "S3_ENDPOINT" ≠ "")) ∧
    (∀ job ok, K8sEffect.createJob job ok ∈ (submitK8sJob w env req image timeout ns).trace →
      (((req.Files.map (fun f => f.2.utf8ByteSize)).sum ≤ 262144 ∨ env "S3_ENDPOINT" = "") →
        job.Template.Volumes
          = [{ Name := "submission",
               Source := .configMap ("submission-" ++ toString w.cmTag) }] ∧
        job.Template.InitContainers = []) ∧
      ((262144 < (req.Files.map (fun f => f.2.utf8ByteSize)).sum ∧ env "S3_ENDPOINT" ≠ "") →
        job.Template.Volumes = [{ Name := "submission", Source := .emptyDir }] ∧
        job.Template.InitContainers.map (fun c => c.Name) = ["fetch-submission"])) := by
  have hbase := transport_by_total w env req image timeout ns hclient
  rw [totalSize_eq_sum] at hbase
  refine ⟨hbase.1, hbase.2, ?_⟩
  intro job ok hjob
  have hiff := useS3_iff env req
  rw [totalSize_eq_sum] at hiff
  unfold submitK8sJob at hjob
  simp only [hclient] at hjob
  by_cases hs : useS3 env req = true
  · have hcond := hiff.mp hs
    simp only [hs, if_true] at hjob
    have hobj := s3Transport_all_objectStore w env req
    rcases ht : s3Transport w env req with ⟨res, tr⟩
    rw [ht] at hobj
    rcases res with e | ⟨vols, inits⟩
    · simp only [ht] at hjob
      have := hobj _ hjob
      cases this
    · simp only [ht, List.mem_append] at hjob
      have hshape := s3Transport_ok w env req vols inits tr ht
      rcases hjob with hjob | hjob
      · have := hobj _ hjob
        cases this
      · have htpl := runJob_createJob w image ns vols inits job ok hjob
        constructor
        · rintro (h | h)
          · omega
          · exact absurd h hcond.2
        · intro _
          rw [htpl]
          exact hshape
  · have hcond : ¬ (262144 < (req.Files.map (fun f => f.2.utf8ByteSize)).sum ∧
        env "S3_ENDPOINT" ≠ "") := fun h => hs (hiff.mpr h)
    simp only [hs, Bool.false_eq_true, if_false] at hjob
    rcases hm : w.cmCreate with _ | e
    · simp only [hm, List.mem_append, List.mem_singleton, reduceCtorEq, or_false,
        false_or] at hjob
      have htpl := runJob_createJob w image ns _ _ job ok hjob
      constructor
      · intro _
        rw [htpl]
        exact ⟨rfl, rfl⟩
      · intro h
        exact absurd h hcond
    · simp [hm] at hjob

/-- The byte lengths of a file of one repeated character and of a second file. -/
theorem sum_sizes_replicate (name other : String) (n : Nat) (c : Char) (rest : List String) :
    (((name, String.mk (List.replicate n c)) :: rest.map (fun s => (other, s))).map
      (fun f => f.2.utf8ByteSize)).sum
      = n * c.utf8Size + (rest.map String.utf8ByteSize).sum := by
  rw [List.map_cons, List.sum_cons, utf8ByteSize_replicate, List.map_map]
  rfl

/-- Witness of C4: on a cluster where every call succeeds and with the object-store
endpoint configured, a submission of 300000 bytes goes through the object store
and calls no ConfigMap API, and a submission of exactly 262144 bytes goes through
the ConfigMap. -/
theorem transport_choice_witness :
    acquireClient calmCluster = none ∧ storeEnv "S3_ENDPOINT" ≠ "" ∧
    (bulkyRequest.Files.map (fun f => f.2.utf8ByteSize)).sum = 300000 ∧
    usesObjectStore (submitK8sJob calmCluster storeEnv bulkyRequest
      "coderipper/runner-python:latest" 5000000000 "default").trace = true ∧
    usesInline (submitK8sJob calmCluster storeEnv bulkyRequest
      "coderipper/runner-python:latest" 5000000000 "default").trace = false ∧
    (brimRequest.Files.map (fun f => f.2.utf8ByteSize)).sum = 262144 ∧
    usesInline (submitK8sJob calmCluster storeEnv brimRequest
      "coderipper/runner-python:latest" 5000000000 "default").trace = true ∧
    usesObjectStore (submitK8sJob calmCluster storeEnv brimRequest
      "coderipper/runner-python:latest" 5000000000 "default").trace = false := by
  have hx : ('x' : Char).utf8Size = 1 := by decide
  have henv : storeEnv "S3_ENDPOINT" ≠ "" := by decide
  have hbig : (bulkyRequest.Files.map (fun f => f.2.utf8ByteSize)).sum = 300000 := by
    have h := sum_sizes_replicate "data.bin" "" 300000 'x' []
    rw [hx] at h
    exact h
  have hbrim : (brimRequest.Files.map (fun f => f.2.utf8ByteSize)).sum = 262144 := by
    have h := sum_sizes_replicate "a.bin" "b.txt" 262143 'x' ["y"]
    rw [hx] at h
    exact h
  have h1 := transport_choice calmCluster storeEnv bulkyRequest
    "coderipper/runner-python:latest" 5000000000 "default" rfl
  have h2 := transport_choice calmCluster storeEnv brimRequest
    "coderipper/runner-python:latest" 5000000000 "default" rfl
  rw [hbig] at h1
  rw [hbrim] at h2
  refine ⟨rfl, henv, hbig, h1.2.1.mpr ⟨by omega, henv⟩, ?_, hbrim,
    h2.1.mpr (Or.inl (by omega)), ?_⟩
  · cases hb : usesInline (submitK8sJob calmCluster storeEnv bulkyRequest
      "coderipper/runner-python:latest" 5000000000 "default").trace
    · rfl
    · rcases h1.1.mp hb with h | h
      · omega
      · exact absurd h henv
  · cases hb : usesObjectStore (submitK8sJob calmCluster storeEnv brimRequest
      "coderipper/runner-python:latest" 5000000000 "default").trace
    · rfl
    · have := (h2.2.1.mp hb).1
      omega

/-! ## Admission validator -/

theorem overwrite_append (d : Bool × String) (a b : List String) :
    overwrite (overwrite d a) b = overwrite d (a ++ b) := by
  unfold overwrite
  rw [List.getLast?_append]
  cases b.getLast? <;> cases a.getLast? <;> rfl

theorem checkContainer_eq (d : Bool × String) (c : Container) :
    checkContainer d c = overwrite d (containerViolations c) := by
  unfold checkContainer containerViolations
  cases c.SecurityContext with
  | none => rfl
  | some sc =>
    simp only
    by_cases h1 : sc.AllowPrivilegeEscalation = some true <;>
      by_cases h2 : sc.ReadOnlyRootFilesystem = some false <;>
      simp [h1, h2, overwrite]

theorem foldl_checkContainer (cs : List Container) :
    ∀ d : Bool × String,
      cs.foldl checkContainer d = overwrite d (cs.flatMap containerViolations) := by
  induction cs with
  | nil => intro d; rfl
  | cons c rest ih =>
    intro d
    rw [List.foldl_cons, ih, checkContainer_eq, overwrite_append, List.flatMap_cons]

/-- The decision on a decoded pod is allowed with an empty message, overwritten by
the last violated rule. -/
theorem checkPod_eq (rr : String) (pod : Pod) :
    checkPod rr pod = overwrite (true, "") (violations rr pod) := by
  unfold checkPod violations
  simp only
  rw [foldl_checkContainer, List.append_assoc, ← overwrite_append, ← overwrite_append]
  congr 1
  by_cases ha : pod.Spec.AutomountServiceAccountToken = some true
  · simp [ha, overwrite]
  · simp only [ha, if_false]
    by_cases hr : rr = ""
    · simp [hr, overwrite]
    · cases hc : pod.Spec.RuntimeClassName with
      | none => simp [hr, overwrite]
      | some rc =>
        by_cases he : rc = rr
        · simp [hr, he, overwrite]
        · simp [hr, he, overwrite]

theorem overwrite_allowed (msgs : List String) :
    (overwrite (true, "") msgs).1 = true ↔ msgs = [] := by
  unfold overwrite
  cases h : msgs.getLast? with
  | none => simp [List.getLast?_eq_none_iff.mp h]
  | some m =>
    have hne : msgs ≠ [] := by
      intro he
      rw [he] at h
      simp at h
    simp [hne]

theorem containerViolations_nil (c : Container) :
    containerViolations c = [] ↔
      ∀ sc, c.SecurityContext = some sc →
        (sc.AllowPrivilegeEscalation = none ∨ sc.AllowPrivilegeEscalation = some false) ∧
        (sc.ReadOnlyRootFilesystem = none ∨ sc.ReadOnlyRootFilesystem = some true) := by
  unfold containerViolations
  cases c.SecurityContext with
  | none => simp
  | some sc =>
    rcases sc with ⟨ape, ro, nr, sp⟩
    rcases ape with _ | _ | _ <;> rcases ro with _ | _ | _ <;> simp

/-- No rule is violated exactly when the three rules hold, a rule on a value
holding also when the value is unset. -/
theorem violations_nil (rr : String) (pod : Pod) :
    violations rr pod = [] ↔
      (rr = "" ∨ pod.Spec.RuntimeClassName = some rr) ∧
      (pod.Spec.AutomountServiceAccountToken = none ∨
        pod.Spec.AutomountServiceAccountToken = some false) ∧
      (∀ c ∈ pod.Spec.Containers, ∀ sc, c.SecurityContext = some sc →
        (sc.AllowPrivilegeEscalation = none ∨ sc.AllowPrivilegeEscalation = some false) ∧
        (sc.ReadOnlyRootFilesystem = none ∨ sc.ReadOnlyRootFilesystem = some true)) := by
  unfold violations
  simp only [List.append_eq_nil, List.flatMap_eq_nil_iff, containerViolations_nil]
  rw [and_assoc]
  refine and_congr ?_ (and_congr ?_ Iff.rfl)
  · by_cases hr : rr = ""
    · simp [hr]
    · by_cases hc : pod.Spec.RuntimeClassName = some rr <;> simp [hr, hc]
  · rcases pod.Spec.AutomountServiceAccountToken with _ | _ | _ <;> simp

/-- C5, as stated, fails: a pod whose container sets a security context with the
read-only root file system left unset is allowed, although the third rule as
stated (privilege escalation false and read-only root file system true for every
set security context) does not hold for it. -/
theorem admit_allows_unset_readonly :
    admitPods "" (.review (createReview laxPod))
      = .review { createReview laxPod with
          Response := some { UID := "705ab4f5", Allowed := true, Result := none } } ∧
    ¬ (∀ c ∈ laxPod.Spec.Containers, ∀ sc, c.SecurityContext = some sc →
        sc.AllowPrivilegeEscalation = some false ∧ sc.ReadOnlyRootFilesystem = some true) := by
  decide

/-- C5 (amended): for every admission review of a Pod create or update whose pod
spec decodes, `admitPods` answers the review with `allowed = true` if and only if
(1) no runtime class is required or the runtime class name of the pod equals the
required one, (2) the token auto-mount is unset or false, and (3) for every
container of the pod whose security context is set, privilege escalation is unset
or false and the read-only root file system is unset or true. -/
theorem admit_allowed_iff (rr : String) (review : AdmissionReview) (req : AdmissionRequest)
    (pod : Pod) (hreq : review.Request = some req) (hkind : req.Kind = "Pod")
    (hop : req.Operation = "CREATE" ∨ req.Operation = "UPDATE")
    (hobj : req.Object = some pod) :
    ∃ resp, admitPods rr (.review review) = .review { review with Response := some resp } ∧
      (resp.Allowed = true ↔
        (rr = "" ∨ pod.Spec.RuntimeClassName = some rr) ∧
        (pod.Spec.AutomountServiceAccountToken = none ∨
          pod.Spec.AutomountServiceAccountToken = some false) ∧
        (∀ c ∈ pod.Spec.Containers, ∀ sc, c.SecurityContext = some sc →
          (sc.AllowPrivilegeEscalation = none ∨ sc.AllowPrivilegeEscalation = some false) ∧
          (sc.ReadOnlyRootFilesystem = none ∨ sc.ReadOnlyRootFilesystem = some true))) := by
  refine ⟨_, by simp only [admitPods, hreq]; rfl, ?_⟩
  simp only [decision, hkind, hop, hobj, and_self, if_true]
  rw [checkPod_eq, overwrite_allowed, violations_nil]

/-- Witness of C5: the pod the runner itself builds is allowed when no runtime
class is required. -/
theorem admit_allowed_iff_witness :
    ∃ resp, admitPods "" (.review (createReview runnerPod))
        = .review { createReview runnerPod with Response := some resp } ∧
      (resp.Allowed = true ↔
        (("" : String) = "" ∨ runnerPod.Spec.RuntimeClassName = some "") ∧
        (runnerPod.Spec.AutomountServiceAccountToken = none ∨
          runnerPod.Spec.AutomountServiceAccountToken = some false) ∧
        (∀ c ∈ runnerPod.Spec.Containers, ∀ sc, c.SecurityContext = some sc →
          (sc.AllowPrivilegeEscalation = none ∨ sc.AllowPrivilegeEscalation = some false) ∧
          (sc.ReadOnlyRootFilesystem = none ∨ sc.ReadOnlyRootFilesystem = some true))) :=
  admit_allowed_iff "" (createReview runnerPod)
    { UID := "705ab4f5", Kind := "Pod", Operation := "CREATE", Object := some runnerPod }
    runnerPod rfl rfl (Or.inl rfl) rfl

/-- C6, as stated, fails: a pod that violates the runtime-class rule and the
auto-mount rule is rejected with the message of the auto-mount rule, not with the
message of the runtime-class rule, the first one violated. -/
theorem reject_message_not_first :
    admitPods "gvisor" (.review (createReview doubleFaultPod))
      = .review { createReview doubleFaultPod with
          Response := some { UID := "705ab4f5", Allowed := false,
                             Result := some "automountServiceAccountToken must be disabled" } } ∧
    (violations "gvisor" doubleFaultPod).head? = some "pod must set RuntimeClassName=gvisor" ∧
    "automountServiceAccountToken must be disabled" ≠ "pod must set RuntimeClassName=gvisor" := by
  decide

/-- The response to a Pod create or update whose object decodes: rejected exactly
when a rule is violated, with the message of the last violated rule. -/
theorem reject_decoded (rr : String) (review : AdmissionReview) (req : AdmissionRequest)
    (pod : Pod) (hreq : review.Request = some req) (hkind : req.Kind = "Pod")
    (hop : req.Operation = "CREATE" ∨ req.Operation = "UPDATE")
    (hobj : req.Object = some pod) :
    ∃ resp, admitPods rr (.review review) = .review { review with Response := some resp } ∧
      (resp.Allowed = false ↔ violations rr pod ≠ []) ∧
      (resp.Allowed = false → resp.Result = (violations rr pod).getLast?) ∧
      (∀ m, violations rr pod = [m] → resp.Allowed = false ∧ resp.Result = some m) ∧
      (violations rr pod = ["allowPrivilegeEscalation must be false"] →
        resp.Allowed = false ∧ resp.Result = some "allowPrivilegeEscalation must be false") := by
  refine ⟨_, by simp only [admitPods, hreq]; rfl, ?_⟩
  simp only [decision, hkind, hop, hobj, and_self, if_true]
  rw [checkPod_eq]
  have hsingle : ∀ m, violations rr pod = [m] →
      (overwrite (true, "") (violations rr pod)).1 = false ∧
      (if (overwrite (true, "") (violations rr pod)).1 = true then none
        else some (overwrite (true, "") (violations rr pod)).2) = some m := by
    intro m hm
    simp [hm, overwrite]
  refine ⟨?_, ?_, hsingle, hsingle _⟩
  · constructor
    · intro h hnil
      rw [(overwrite_allowed _).mpr hnil] at h
      cases h
    · intro h
      cases hb : (overwrite (true, "") (violations rr pod)).1
      · rfl
      · exact absurd ((overwrite_allowed _).mp hb) h
  · intro hrej
    unfold overwrite at hrej ⊢
    cases h : (violations rr pod).getLast? with
    | none => simp [h] at hrej
    | some m => simp

/-- C6 (amended): for every admission review that `admitPods` rejects, the review
is a Pod create or update, and the reject message is `could not decode pod` when
the pod object does not decode, and otherwise the message of the last violated
rule in the order runtime class, token auto-mount, container security contexts
(container by container, privilege escalation before the read-only root file
system). A Pod create or update whose object does not decode is rejected, one that
decodes is rejected exactly when it violates a rule, and a pod that violates one
rule only gets the message of that rule, so a pod whose only violation is
`allowPrivilegeEscalation=true` gets `allowed = false` with the message
`allowPrivilegeEscalation must be false`. -/
theorem reject_message_last (rr : String) (review : AdmissionReview) (req : AdmissionRequest)
    (hreq : review.Request = some req) :
    ∃ resp, admitPods rr (.review review) = .review { review with Response := some resp } ∧
      (resp.Allowed = false →
        req.Kind = "Pod" ∧ (req.Operation = "CREATE" ∨ req.Operation = "UPDATE") ∧
        ((req.Object = none ∧ resp.Result = some "could not decode pod") ∨
         ∃ pod, req.Object = some pod ∧ violations rr pod ≠ [] ∧
           resp.Result = (violations rr pod).getLast?)) ∧
      (req.Kind = "Pod" → (req.Operation = "CREATE" ∨ req.Operation = "UPDATE") →
        (req.Object = none →
          resp.Allowed = false ∧ resp.Result = some "could not decode pod") ∧
        (∀ pod, req.Object = some pod →
          (resp.Allowed = false ↔ violations rr pod ≠ []) ∧
          (∀ m, violations rr pod = [m] → resp.Allowed = false ∧ resp.Result = some m) ∧
          (violations rr pod = ["allowPrivilegeEscalation must be false"] →
            resp.Allowed = false ∧
            resp.Result = some "allowPrivilegeEscalation must be false"))) := by
  have hresp : admitPods rr (.review review)
      = .review { review with
          Response := some
            { UID := req.UID, Allowed := (decision rr req).1,
              Result := if (decision rr req).1 then none else some (decision rr req).2 } } := by
    simp only [admitPods, hreq]
  have hundec : req.Kind = "Pod" → (req.Operation = "CREATE" ∨ req.Operation = "UPDATE") →
      req.Object = none → decision rr req = (false, "could not decode pod") := by
    intro hk ho hn
    simp [decision, hk, ho, hn]
  refine ⟨_, hresp, ?_, ?_⟩
  · intro hrej
    simp only at hrej
    by_cases hk : req.Kind = "Pod" ∧ (req.Operation = "CREATE" ∨ req.Operation = "UPDATE")
    · refine ⟨hk.1, hk.2, ?_⟩
      rcases hobj : req.Object with _ | pod
      · left
        refine ⟨rfl, ?_⟩
        rw [hundec hk.1 hk.2 hobj]
        rfl
      · right
        obtain ⟨resp2, h2, hiff, hlast, -, -⟩ :=
          reject_decoded rr review req pod hreq hk.1 hk.2 hobj
        rw [hresp] at h2
        injection h2 with h2
        injection h2 with _ h2
        injection h2 with h2
        subst h2
        exact ⟨pod, rfl, hiff.mp hrej, hlast hrej⟩
    · simp [decision, hk] at hrej
  · intro hk ho
    constructor
    · intro hn
      rw [hundec hk ho hn]
      exact ⟨rfl, rfl⟩
    · intro pod hobj
      obtain ⟨resp2, h2, hiff, -, hsingle, hape⟩ :=
        reject_decoded rr review req pod hreq hk ho hobj
      rw [hresp] at h2
      injection h2 with h2
      injection h2 with _ h2
      injection h2 with h2
      subst h2
      exact ⟨hiff, hsingle, hape⟩

/-- Witness of C6: scenario 6 of the specification, a pod whose only violation is
`allowPrivilegeEscalation=true`, and a Pod create whose object does not decode. -/
theorem reject_message_last_witness :
    violations "" escalatingPod = ["allowPrivilegeEscalation must be false"] ∧
    (∃ resp, admitPods "" (.review (createReview escalatingPod))
        = .review { createReview escalatingPod with Response := some resp } ∧
      resp.Allowed = false ∧ resp.Result = some "allowPrivilegeEscalation must be false") ∧
    (∃ resp, admitPods "" (.review
          { Request := some { UID := "41d7", Kind := "Pod", Operation := "CREATE",
                              Object := none },
            Response := none })
        = .review
          { Request := some { UID := "41d7", Kind := "Pod", Operation := "CREATE",
                              Object := none },
            Response := some resp } ∧
      resp.Allowed = false ∧ resp.Result = some "could not decode pod") := by
  have hv : violations "" escalatingPod = ["allowPrivilegeEscalation must be false"] := by decide
  obtain ⟨resp, hresp, -, h⟩ := reject_message_last "" (createReview escalatingPod)
    { UID := "705ab4f5", Kind := "Pod", Operation := "CREATE", Object := some escalatingPod }
    rfl
  obtain ⟨resp2, hresp2, -, h2⟩ := reject_message_last ""
    { Request := some { UID := "41d7", Kind := "Pod", Operation := "CREATE", Object := none },
      Response := none }
    { UID := "41d7", Kind := "Pod", Operation := "CREATE", Object := none } rfl
  exact ⟨hv, ⟨resp, hresp, ((h rfl (Or.inl rfl)).2 escalatingPod rfl).2.2 hv⟩,
    ⟨resp2, hresp2, (h2 rfl (Or.inl rfl)).1 rfl⟩⟩

/-! ## Files written by the native and container runners -/

theorem cleanFrom_append (a b : List String) :
    ∀ acc : Path, cleanFrom acc (a ++ b) = cleanFrom (cleanFrom acc a) b := by
  induction a with
  | nil => intro acc; rfl
  | cons s rest ih =>
    intro acc
    simp only [List.cons_append, cleanFrom]
    split_ifs <;> exact ih _

theorem cleanFrom_clean (d : List String) (hd : Path.isClean d) :
    ∀ acc : Path, cleanFrom acc d = acc ++ d := by
  induction d with
  | nil => intro acc; simp [cleanFrom]
  | cons s rest ih =>
    intro acc
    have hs := hd s (List.mem_cons_self s rest)
    have hrest : Path.isClean rest := fun x hx => hd x (List.mem_cons_of_mem s hx)
    simp only [cleanFrom, hs.1, hs.2.1, hs.2.2, or_self, if_false]
    rw [ih hrest, List.append_assoc]
    rfl

/-- Without a `..` element the cleaning only appends: the result passes through
the path it started from. -/
theorem cleanFrom_prefix (segs : List String) (hsegs : ".." ∉ segs) :
    ∀ acc : Path, acc <+: cleanFrom acc segs := by
  induction segs with
  | nil => intro acc; exact List.prefix_refl acc
  | cons s rest ih =>
    intro acc
    have hs : s ≠ ".." := fun h => hsegs (h ▸ List.mem_cons_self s rest)
    have hrest : ".." ∉ rest := fun h => hsegs (List.mem_cons_of_mem s h)
    simp only [cleanFrom, hs, if_false]
    split_ifs
    · exact ih hrest acc
    · exact (List.prefix_append acc [s]).trans (ih hrest (acc ++ [s]))

/-- A name without a `..` element is joined to a place inside the directory. -/
theorem Join_inside (dir : Path) (name : String) (hdir : Path.isClean dir)
    (hname : ".." ∉ pathSegments name) : Path.inside dir (Join dir name) := by
  unfold Path.inside Join
  rw [cleanFrom_append, cleanFrom_clean dir hdir, List.nil_append]
  exact cleanFrom_prefix _ hname dir

theorem writtenPaths_append (a b : List HostEffect) :
    writtenPaths (a ++ b) = writtenPaths a ++ writtenPaths b := by
  induction a with
  | nil => rfl
  | cons e rest ih =>
    cases e <;> simp [writtenPaths, ih]

theorem nativeWriteFiles_paths (w : HostWorld) (tmpDir : Path) (files : List (String × String)) :
    ∀ (mainFile : Option Path), ∀ p ∈ writtenPaths (nativeWriteFiles w tmpDir files mainFile).2,
      ∃ f ∈ files, p = Join tmpDir f.1 := by
  induction files with
  | nil => intro mainFile p hp; simp [nativeWriteFiles, writtenPaths] at hp
  | cons f rest ih =>
    obtain ⟨name, content⟩ := f
    intro mainFile p hp
    unfold nativeWriteFiles at hp
    simp only at hp
    rcases hm : w.mkdirAll (Dir (Join tmpDir name)) with _ | e
    · rcases hw : w.writeFile (Join tmpDir name) with _ | e
      · simp only [hm, hw, writtenPaths, List.mem_cons] at hp
        rcases hp with rfl | hp
        · exact ⟨(name, content), List.mem_cons_self _ _, rfl⟩
        · obtain ⟨f, hf, hpf⟩ := ih _ p hp
          exact ⟨f, List.mem_cons_of_mem _ hf, hpf⟩
      · simp only [hm, hw, writtenPaths, List.mem_cons, List.not_mem_nil, or_false] at hp
        exact ⟨(name, content), List.mem_cons_self _ _, hp⟩
    · simp [hm, writtenPaths] at hp

theorem dockerWriteFiles_paths (tmpDir : Path) (files : List (String × String)) :
    ∀ p ∈ writtenPaths (dockerWriteFiles tmpDir files), ∃ f ∈ files, p = Join tmpDir f.1 := by
  induction files with
  | nil => intro p hp; simp [dockerWriteFiles, writtenPaths] at hp
  | cons f rest ih =>
    obtain ⟨name, content⟩ := f
    intro p hp
    simp only [dockerWriteFiles, writtenPaths, List.mem_cons] at hp
    rcases hp with rfl | hp
    · exact ⟨(name, content), List.mem_cons_self _ _, rfl⟩
    · obtain ⟨f, hf, hpf⟩ := ih p hp
      exact ⟨f, List.mem_cons_of_mem _ hf, hpf⟩

theorem nativeRun_paths (w : HostWorld) (req : RunRequest) (argv : List String) :
    writtenPaths (nativeRun w req argv).2 = [] := rfl

/-- Every file `executeNative` writes is the join of the temporary directory and a
file name of the submission. -/
theorem executeNative_paths (w : HostWorld) (req : RunRequest) (tmpDir : Path)
    (hdir : w.mkdirTemp = .ok tmpDir) :
    ∀ p ∈ writtenPaths (executeNative w req).2, ∃ f ∈ req.Files, p = Join tmpDir f.1 := by
  intro p hp
  have hfiles := nativeWriteFiles_paths w tmpDir req.Files none p
  unfold executeNative at hp
  simp only [hdir, writtenPaths_append, writtenPaths, List.append_nil] at hp
  unfold executeNativeIn at hp
  rcases hres : nativeWriteFiles w tmpDir req.Files none with ⟨res, eff⟩
  rw [hres] at hp hfiles
  rcases res with msg | mainFile
  · exact hfiles hp
  · simp only at hp
    rcases hc : nativeCommand req.Language tmpDir mainFile with _ | ⟨comp, argv⟩
    · simp only [hc] at hp
      exact hfiles hp
    · rcases comp with _ | cargv
      · simp only [hc, writtenPaths_append, nativeRun_paths, List.append_nil] at hp
        exact hfiles hp
      · rcases hk : w.compile.2 with _ | e
        · simp only [hc, hk, writtenPaths_append, nativeRun_paths, writtenPaths,
            List.append_nil] at hp
          exact hfiles hp
        · simp only [hc, hk, writtenPaths_append, writtenPaths, List.append_nil] at hp
          exact hfiles hp

/-- C7 at the submission with the one file name `../evil.sh`: the native runner and
the container runner, started by the run handler, write the file to `/tmp/evil.sh`,
outside the temporary directory `/tmp/coderipper-native-1` of the run, and the
deferred `os.RemoveAll` removes that directory only, so the file stays. -/
theorem write_escapes_tmpdir :
    calmHost.mkdirTemp = .ok ["tmp", "coderipper-native-1"] ∧
    writtenPaths (executeNative calmHost climbingRequest).2 = [["tmp", "evil.sh"]] ∧
    writtenPaths (runHandler (calmWorld "native") (newRateLimiter 60)
      (requestOf climbingRequest)).hostEffects = [["tmp", "evil.sh"]] ∧
    writtenPaths (runHandler (calmWorld "docker") (newRateLimiter 60)
      { RemoteAddr := "10.0.0.7:5123", RemoteHost := "10.0.0.7", body := some climbingRequest,
        userID := none }).hostEffects = [["tmp", "evil.sh"]] ∧
    ¬ Path.inside ["tmp", "coderipper-native-1"] ["tmp", "evil.sh"] ∧
    (runHandler (calmWorld "native") (newRateLimiter 60)
      (requestOf climbingRequest)).hostEffects.getLast?
      = some (.removeAll ["tmp", "coderipper-native-1"]) :=
  ⟨rfl, by decide, by decide, by decide, by decide, by decide⟩

/-- For a submission none of whose file names has a `..` element, every file the
native runner and the container runner write lies inside the private temporary
directory of the run; an absolute file name is taken relative to that directory. -/
theorem writes_inside_tmpdir (w : HostWorld) (req : RunRequest) (tmpDir : Path)
    (hdir : w.mkdirTemp = .ok tmpDir) (hclean : Path.isClean tmpDir)
    (hnames : ∀ f ∈ req.Files, ".." ∉ pathSegments f.1) :
    (∀ p ∈ writtenPaths (executeNative w req).2, Path.inside tmpDir p) ∧
    (∀ (world : World) (rl : RateLimiter) (r : HttpRequest), world.host = w →
      ∀ p ∈ writtenPaths (handleDocker world rl r req).hostEffects, Path.inside tmpDir p) := by
  constructor
  · intro p hp
    obtain ⟨f, hf, rfl⟩ := executeNative_paths w req tmpDir hdir p hp
    exact Join_inside tmpDir f.1 hclean (hnames f hf)
  · intro world rl r hw p hp
    unfold handleDocker at hp
    rw [hw] at hp
    simp only [hdir] at hp
    have hin : p ∈ writtenPaths (dockerWriteFiles tmpDir req.Files) := by
      split_ifs at hp <;>
        simpa [writtenPaths_append, writtenPaths] using hp
    obtain ⟨f, hf, rfl⟩ := dockerWriteFiles_paths tmpDir req.Files p hin
    exact Join_inside tmpDir f.1 hclean (hnames f hf)

/-- A submission with an absolute file name and a nested relative one: both files
land inside the temporary directory. -/
theorem writes_inside_tmpdir_witness :
    writtenPaths (executeNative calmHost rootedRequest).2
      = [["tmp", "coderipper-native-1", "etc", "cron.d", "job"],
         ["tmp", "coderipper-native-1", "src", "main.sh"]] ∧
    (∀ p ∈ writtenPaths (executeNative calmHost rootedRequest).2,
      Path.inside ["tmp", "coderipper-native-1"] p) ∧
    (∀ p ∈ writtenPaths (handleDocker (calmWorld "docker") (newRateLimiter 60)
        { RemoteAddr := "10.0.0.7:5123", RemoteHost := "10.0.0.7", body := some rootedRequest,
          userID := none } rootedRequest).hostEffects,
      Path.inside ["tmp", "coderipper-native-1"] p) := by
  have h := writes_inside_tmpdir calmHost rootedRequest ["tmp", "coderipper-native-1"] rfl
    (by decide) (by decide)
  exact ⟨by decide, h.1, h.2 (calmWorld "docker") _ _ rfl⟩

/-! ## Results of the runners -/

theorem nativeRun_success (w : HostWorld) (req : RunRequest) (argv : List String) :
    (nativeRun w req argv).1.Success = true ↔ (nativeRun w req argv).1.ExitCode = 0 := by
  unfold nativeRun
  simp only
  rcases w.run.err with _ | (code | msg)
  · simp
  · by_cases hd : w.run.deadline = true <;> simp [hd]
  · by_cases hd : w.run.deadline = true <;> simp [hd]

theorem executeNativeIn_success (w : HostWorld) (req : RunRequest) (tmpDir : Path) :
    (executeNativeIn w req tmpDir).1.Success = true ↔
      (executeNativeIn w req tmpDir).1.ExitCode = 0 := by
  unfold executeNativeIn
  rcases nativeWriteFiles w tmpDir req.Files none with ⟨res, eff⟩
  rcases res with msg | mainFile
  · simp
  · simp only
    rcases nativeCommand req.Language tmpDir mainFile with _ | ⟨comp, argv⟩
    · simp
    · rcases comp with _ | cargv
      · exact nativeRun_success w req argv
      · simp only
        rcases w.compile.2 with _ | e
        · exact nativeRun_success w req argv
        · simp

theorem executeNative_success (w : HostWorld) (req : RunRequest) :
    (executeNative w req).1.Success = true ↔ (executeNative w req).1.ExitCode = 0 := by
  unfold executeNative
  rcases w.mkdirTemp with e | tmpDir
  · simp
  · exact executeNativeIn_success w req tmpDir

/-- The results a return of the Kubernetes runner carries: the result of a
successful return, or the one that comes with an error. -/
theorem collectOutput_success (w : K8sWorld) (ns : String) (r : K8sRunResult)
    (h : (collectOutput w ns).ret = .result r ∨
      ∃ msg, (collectOutput w ns).ret = .error (some r) msg) :
    r.Success = true ↔ r.ExitCode = 0 := by
  unfold collectOutput at h
  rcases hp : w.podList with e | pods
  · simp only [hp, K8sReturn.result.injEq, reduceCtorEq, exists_false, or_false] at h
    subst h
    simp
  · rcases pods with _ | ⟨pod, rest⟩
    · simp only [hp, K8sReturn.result.injEq, reduceCtorEq, exists_false, or_false] at h
      subst h
      simp
    · rcases hl : w.logs with e | text
      · simp [hp, hl] at h
      · simp only [hp, hl, K8sReturn.result.injEq, reduceCtorEq, exists_false, or_false] at h
        subst h
        simp

theorem runJob_success (w : K8sWorld) (image ns : String) (vols : List Volume)
    (inits : List Container) (r : K8sRunResult)
    (h : (runJob w image ns vols inits).ret = .result r ∨
      ∃ msg, (runJob w image ns vols inits).ret = .error (some r) msg) :
    r.Success = true ↔ r.ExitCode = 0 := by
  unfold runJob at h
  rcases hj : w.jobCreate with _ | e
  · simp only [hj] at h
    rcases hs : (supervise w.polls).1 with _ | msg | _
    · simp only [hs, reduceCtorEq, K8sReturn.error.injEq, Option.some.injEq, exists_and_left,
        exists_eq', and_true, false_or] at h
      subst h
      simp
    · simp [hs] at h
    · simp only [hs] at h
      exact collectOutput_success w ns r h
  · simp [hj] at h

theorem submitK8sJob_success (w : K8sWorld) (env : String → String) (req : RunRequest)
    (image : String) (timeout : Int) (ns : String) (r : K8sRunResult)
    (h : (submitK8sJob w env req image timeout ns).ret = .result r ∨
      ∃ msg, (submitK8sJob w env req image timeout ns).ret = .error (some r) msg) :
    r.Success = true ↔ r.ExitCode = 0 := by
  unfold submitK8sJob at h
  rcases hc : acquireClient w with _ | e
  · simp only [hc] at h
    by_cases hs : useS3 env req = true
    · simp only [hs, if_true] at h
      rcases ht : s3Transport w env req with ⟨res, tr⟩
      rcases res with e | ⟨vols, inits⟩
      · simp [ht] at h
      · simp only [ht] at h
        exact runJob_success w image ns vols inits r h
    · simp only [hs, Bool.false_eq_true, if_false] at h
      rcases hm : w.cmCreate with _ | e
      · simp only [hm] at h
        exact runJob_success w image ns _ _ r h
      · simp [hm] at h
  · simp [hc] at h

/-- C8: for every result value a backend returns, success is true if and only if
the exit code is 0: for the `NativeResult` of `executeNative` on every return
path, and for every `K8sRunResult` `submitK8sJob` returns, alone or together with
an error (the timeout). -/
theorem success_iff_exit_zero :
    (∀ (w : HostWorld) (req : RunRequest),
      (executeNative w req).1.Success = true ↔ (executeNative w req).1.ExitCode = 0) ∧
    (∀ (w : K8sWorld) (env : String → String) (req : RunRequest) (image : String)
        (timeout : Int) (ns : String) (r : K8sRunResult),
      ((submitK8sJob w env req image timeout ns).ret = .result r ∨
        ∃ msg, (submitK8sJob w env req image timeout ns).ret = .error (some r) msg) →
      (r.Success = true ↔ r.ExitCode = 0)) :=
  ⟨executeNative_success, submitK8sJob_success⟩

/-- Witness of C8: a run that exits with 0 and a run that is killed at the
deadline, on the host and on the cluster. -/
theorem success_iff_exit_zero_witness :
    ((executeNative calmHost helloPython).1.Success = true ↔
      (executeNative calmHost helloPython).1.ExitCode = 0) ∧
    (executeNative calmHost helloPython).1.ExitCode = 0 ∧
    (executeNative hungHost helloPython).1.ExitCode = 124 ∧
    (executeNative hungHost helloPython).1.Success = false ∧
    (submitK8sJob stalledCluster noEnv helloPython "coderipper/runner-python:latest"
        3000000000 "default").ret
      = .error (some { Stdout := "timeout", ExitCode := 137, Success := false }) "job timeout" ∧
    (((false : Bool) = true) ↔ ((137 : Int) = 0)) :=
  ⟨success_iff_exit_zero.1 calmHost helloPython, by decide, by decide, by decide, by decide,
   success_iff_exit_zero.2 stalledCluster noEnv helloPython "coderipper/runner-python:latest"
     3000000000 "default" { Stdout := "timeout", ExitCode := 137, Success := false }
     (Or.inr ⟨"job timeout", by decide⟩)⟩

/-! ## Lifetime of the ConfigMap -/

theorem configMapsAfter_plain (cms : List String) (e : K8sEffect)
    (he : e.isConfigMap = false) : configMapsAfter cms e = cms := by
  cases e <;> first | rfl | simp [K8sEffect.isConfigMap] at he

theorem foldl_configMapsAfter_plain (tr : List K8sEffect)
    (htr : ∀ e ∈ tr, e.isConfigMap = false) :
    ∀ cms : List String, tr.foldl configMapsAfter cms = cms := by
  induction tr with
  | nil => intro cms; rfl
  | cons e rest ih =>
    intro cms
    rw [List.foldl_cons, configMapsAfter_plain cms e (htr e (List.mem_cons_self e rest))]
    exact ih (fun x hx => htr x (List.mem_cons_of_mem e hx)) cms

theorem s3Transport_no_configMap (w : K8sWorld) (env : String → String) (req : RunRequest) :
    ∀ e ∈ (s3Transport w env req).2, e.isConfigMap = false := by
  have h := (s3Transport_trace w env req).2
  unfold usesInline at h
  rw [List.any_eq_false] at h
  intro e he
  simpa using h e he

/-- C9: in every run of `submitK8sJob` whose ConfigMap create call succeeds, the
create is the first call, the delete of the same name in the same namespace is the
last one, and no call between them touches a ConfigMap, whatever the path taken
after the create (Job create error, Job get error, timeout, no pod found, log
stream error, normal completion); so when the delete succeeds the ConfigMap names
of the cluster after the run are those before it. A run that uses the object
store makes no ConfigMap call. -/
theorem configmap_deleted (w : K8sWorld) (env : String → String) (req : RunRequest)
    (image : String) (timeout : Int) (ns : String) :
    (∀ (nsx name : String) (data : List (String × String)),
      K8sEffect.createConfigMap nsx name data true
          ∈ (submitK8sJob w env req image timeout ns).trace →
        ∃ mid, (submitK8sJob w env req image timeout ns).trace
            = K8sEffect.createConfigMap nsx name data true ::
                (mid ++ [K8sEffect.deleteConfigMap nsx name w.cmDelete.isNone]) ∧
          (∀ e ∈ mid, e.isConfigMap = false) ∧
          (w.cmDelete = none → ∀ cms : List String, name ∉ cms →
            (submitK8sJob w env req image timeout ns).trace.foldl configMapsAfter cms = cms)) ∧
    (usesObjectStore (submitK8sJob w env req image timeout ns).trace = true →
      usesInline (submitK8sJob w env req image timeout ns).trace = false) := by
  unfold submitK8sJob
  rcases hc : acquireClient w with _ | e
  · simp only
    by_cases hs : useS3 env req = true
    · simp only [hs, if_true]
      have hplain := s3Transport_no_configMap w env req
      rcases ht : s3Transport w env req with ⟨res, tr⟩
      rw [ht] at hplain
      rcases res with e | ⟨vols, inits⟩
      · refine ⟨?_, ?_⟩
        · intro nsx name data hmem
          have := hplain _ hmem
          simp [K8sEffect.isConfigMap] at this
        · intro _
          unfold usesInline
          rw [List.any_eq_false]
          intro e he
          simp [hplain e he]
      · refine ⟨?_, ?_⟩
        · intro nsx name data hmem
          simp only [List.mem_append] at hmem
          rcases hmem with hmem | hmem
          · have := hplain _ hmem
            simp [K8sEffect.isConfigMap] at this
          · have := (runJob_trace_plain w image ns vols inits _ hmem).1
            simp [K8sEffect.isConfigMap] at this
        · intro _
          unfold usesInline
          rw [List.any_eq_false]
          intro e he
          simp only [List.mem_append] at he
          rcases he with he | he
          · simp [hplain e he]
          · simp [(runJob_trace_plain w image ns vols inits e he).1]
    · simp only [hs, Bool.false_eq_true, if_false]
      rcases hm : w.cmCreate with _ | e
      · simp only
        refine ⟨?_, ?_⟩
        · intro nsx name data hmem
          have hmid := runJob_trace_plain w image ns
            [{ Name := "submission", Source := .configMap ("submission-" ++ toString w.cmTag) }] []
          simp only [List.mem_append, List.mem_singleton, List.mem_cons, List.not_mem_nil,
            or_false, reduceCtorEq] at hmem
          rcases hmem with hmem | hmem
          · injection hmem with h1 h2 h3 h4
            subst h1 h2 h3
            refine ⟨_, by simp, fun e he => (hmid e he).1, ?_⟩
            intro hdel cms hfresh
            rw [hdel]
            simp only [List.singleton_append, List.foldl_cons, List.foldl_append,
              List.foldl_nil, Option.isNone_none]
            rw [foldl_configMapsAfter_plain _ (fun e he => (hmid e he).1)]
            simp only [configMapsAfter]
            rw [List.filter_cons_of_neg (by simp)]
            rw [List.filter_eq_self]
            intro n hn
            simp only [bne_iff_ne, ne_eq]
            intro hEq
            exact hfresh (hEq ▸ hn)
          · have := (hmid _ hmem).1
            simp [K8sEffect.isConfigMap] at this
        · intro hobj
          have h2 := runJob_usesObjectStore w image ns
            [{ Name := "submission", Source := .configMap ("submission-" ++ toString w.cmTag) }] []
          exfalso
          simp only [usesObjectStore, List.any_append, List.any_cons, List.any_nil,
            K8sEffect.isObjectStore, Bool.false_or, Bool.or_false] at hobj h2
          rw [h2] at hobj
          cases hobj
      · simp [usesObjectStore, K8sEffect.isObjectStore]
  · simp [usesObjectStore, usesInline]

/-- Witness of C9: a run whose Job fails and whose log stream cannot be opened
returns an error, and still the delete is its last call and the ConfigMap names of
the cluster are unchanged. -/
theorem configmap_deleted_witness :
    (submitK8sJob muteCluster noEnv helloPython "coderipper/runner-python:latest"
        3000000000 "default").ret = .error none "pod logs: container not found" ∧
    (submitK8sJob muteCluster noEnv helloPython "coderipper/runner-python:latest"
        3000000000 "default").trace.getLast?
      = some (K8sEffect.deleteConfigMap "default" "submission-1" true) ∧
    (submitK8sJob muteCluster noEnv helloPython "coderipper/runner-python:latest"
        3000000000 "default").trace.foldl configMapsAfter ["kube-root-ca.crt"]
      = ["kube-root-ca.crt"] := by
  obtain ⟨mid, -, -, hfold⟩ := (configmap_deleted muteCluster noEnv helloPython
    "coderipper/runner-python:latest" 3000000000 "default").1 "default" "submission-1"
    helloPython.Files (by decide)
  exact ⟨by decide, by decide, hfold rfl ["kube-root-ca.crt"] (by decide)⟩

/-! ## Timeouts in the run handler -/

/-- C10 at a run whose deadline fires, in the three runner modes. In Kubernetes
mode `submitK8sJob` returns its timeout result (exit code 137) together with the
error `job timeout`, and the handler, seeing an error, answers 500 and counts
`status=error`. In native mode the handler answers 200 with exit code 124 and
counts `status=fail`. Only in Docker mode does it answer 200 with the timeout
text and count `status=timeout`. -/
theorem timeout_handling_by_mode :
    (submitK8sJob stalledCluster (stalledWorld "k8s").env (applyDefaults helloPython)
        "coderipper/runner-python:latest" 3000000000 "default").ret
      = .error (some { Stdout := "timeout", ExitCode := 137, Success := false }) "job timeout" ∧
    (runHandler (stalledWorld "k8s") (newRateLimiter 60) (requestOf helloPython)).response
      = { status := 500, body := .text "job submit failed: job timeout\n" } ∧
    (runHandler (stalledWorld "k8s") (newRateLimiter 60) (requestOf helloPython)).metrics
      = [("k8s", "error")] ∧
    (runHandler (stalledWorld "native") (newRateLimiter 60) (requestOf helloPython)).response
      = { status := 200,
          body := .native { Stdout := "", Stderr := "Execution timed out after 3 seconds",
                            ExitCode := 124, Success := false, Language := "python" } } ∧
    (runHandler (stalledWorld "native") (newRateLimiter 60) (requestOf helloPython)).metrics
      = [("native", "fail")] ∧
    (runHandler (stalledWorld "docker") (newRateLimiter 60) (requestOf helloPython)).response
      = { status := 200, body := .text "\n--- run timeout ---\n" } ∧
    (runHandler (stalledWorld "docker") (newRateLimiter 60) (requestOf helloPython)).metrics
      = [("docker", "timeout")] := by
  decide

/-! ## Output collection -/

/-- A run that gets as far as output collection returns what the collection
returns. -/
theorem submit_returns_collected (w : K8sWorld) (env : String → String) (req : RunRequest)
    (image : String) (timeout : Int) (ns : String)
    (h : reachesCollection w env req = true) :
    (submitK8sJob w env req image timeout ns).ret = (collectOutput w ns).ret := by
  unfold reachesCollection at h
  simp only [Bool.and_eq_true, Option.isNone_iff_eq_none, decide_eq_true_eq] at h
  obtain ⟨⟨⟨hc, ht⟩, hj⟩, hs⟩ := h
  have hrun : ∀ vols inits, (runJob w image ns vols inits).ret = (collectOutput w ns).ret := by
    intro vols inits
    simp [runJob, hj, hs]
  unfold submitK8sJob
  simp only [hc]
  by_cases hu : useS3 env req = true
  · simp only [hu, if_true] at ht ⊢
    rcases hres : s3Transport w env req with ⟨res, tr⟩
    rw [hres] at ht
    rcases res with e | ⟨vols, inits⟩
    · simp at ht
    · exact hrun vols inits
  · simp only [hu, Bool.false_eq_true, if_false, Option.isNone_iff_eq_none] at ht ⊢
    simp only [ht]
    exact hrun _ _

/-- C11, as stated, fails: when the log stream cannot be opened the run returns a
nil result with the error `pod logs: ...`, and when no pod is listed the result it
returns has the standard output `no pod logs`, not an empty one. -/
theorem collection_failure_not_uniform :
    reachesCollection muteCluster noEnv helloPython = true ∧
    (submitK8sJob muteCluster noEnv helloPython "coderipper/runner-python:latest"
        3000000000 "default").ret = .error none "pod logs: container not found" ∧
    reachesCollection emptyPodsCluster noEnv helloPython = true ∧
    (submitK8sJob emptyPodsCluster noEnv helloPython "coderipper/runner-python:latest"
        3000000000 "default").ret
      = .result { Stdout := "no pod logs", ExitCode := 1, Success := false } ∧
    "no pod logs" ≠ "" := by
  decide

/-- C11 (amended): for every Kubernetes run that reaches output collection after
the Job reached a terminal condition, when the pod list fails or is empty
`submitK8sJob` returns, with a nil error, the result with standard output
`no pod logs`, exit code 1 and success false; when a pod is listed and its log
stream cannot be opened it returns a nil result and the error `pod logs: ...`. -/
theorem collection_failure (w : K8sWorld) (env : String → String) (req : RunRequest)
    (image : String) (timeout : Int) (ns : String)
    (h : reachesCollection w env req = true) :
    (((∃ e, w.podList = .error e) ∨ w.podList = .ok []) →
      (submitK8sJob w env req image timeout ns).ret
        = .result { Stdout := "no pod logs", ExitCode := 1, Success := false }) ∧
    (∀ pod rest e, w.podList = .ok (pod :: rest) → w.logs = .error e →
      (submitK8sJob w env req image timeout ns).ret = .error none ("pod logs: " ++ e)) := by
  rw [submit_returns_collected w env req image timeout ns h]
  constructor
  · rintro (⟨e, hp⟩ | hp) <;> simp [collectOutput, hp]
  · intro pod rest e hp hl
    simp [collectOutput, hp, hl]

/-- Witness of C11: a completed Job whose pod list comes back empty. -/
theorem collection_failure_witness :
    reachesCollection emptyPodsCluster noEnv helloPython = true ∧
    emptyPodsCluster.podList = .ok [] ∧
    (submitK8sJob emptyPodsCluster noEnv helloPython "coderipper/runner-python:latest"
        3000000000 "default").ret
      = .result { Stdout := "no pod logs", ExitCode := 1, Success := false } :=
  ⟨by decide, rfl,
   (collection_failure emptyPodsCluster noEnv helloPython "coderipper/runner-python:latest"
      3000000000 "default" (by decide)).1 (Or.inr rfl)⟩

/-! ## Key of the rate limiter -/

theorem handleK8s_limiter (w : World) (rl : RateLimiter) (r : HttpRequest) (req : RunRequest) :
    (handleK8s w rl r req).limiter = rl := by
  unfold handleK8s
  simp only
  split <;> rfl

theorem handleDocker_limiter (w : World) (rl : RateLimiter) (r : HttpRequest)
    (req : RunRequest) : (handleDocker w rl r req).limiter = rl := by
  unfold handleDocker
  split
  · rfl
  · simp only
    split <;> rfl

/-- The limiter after a request is the limiter after one `allow` of the key. -/
theorem runHandler_limiter (w : World) (rl : RateLimiter) (r : HttpRequest) :
    (runHandler w rl r).limiter = (rl.allow (rateKey r) w.now).2 := by
  unfold runHandler
  simp only
  by_cases ha : (rl.allow (rateKey r) w.now).1 = false
  · simp only [ha, if_true]
  · simp only [ha, if_false]
    rcases r.body with _ | decoded
    · rfl
    · simp only
      generalize (if w.env "RUNNER_MODE" = "" then "native" else w.env "RUNNER_MODE") = mode
      by_cases hk : mode = "k8s"
      · simp only [hk, if_true]
        exact handleK8s_limiter _ _ _ _
      · by_cases hn : mode = "native"
        · simp only [hk, hn, if_true, if_false]
          rfl
        · simp only [hk, hn, if_false]
          exact handleDocker_limiter _ _ _ _

/-- C12, as stated, fails: for a request that carries the caller identity `user-1`
the key passed to `allow` is the peer address, and the bucket of `user-1` is never
touched. -/
theorem rate_key_ignores_identity :
    (requestOf helloPython).userID = some "user-1" ∧
    rateKey (requestOf helloPython) = "10.0.0.7" ∧
    (runHandler (calmWorld "native") (newRateLimiter 60) (requestOf helloPython)).limiter.items
      "user-1" = none ∧
    (runHandler (calmWorld "native") (newRateLimiter 60) (requestOf helloPython)).limiter.items
      "10.0.0.7" = some { count := 1, windowEnd := Minute } := by
  decide

/-- C12 (amended): for every request reaching the run handler, the key passed to
the rate limiter is the host part of `RemoteAddr`, or all of `RemoteAddr` when no
host part is found, whether or not the request context holds a caller identity;
the limiter after the request is the limiter after one `allow` of that key, and a
denial is answered with status 429. -/
theorem rate_key_is_peer_address (w : World) (rl : RateLimiter) (r : HttpRequest) :
    (runHandler w rl r).limiter = (rl.allow (rateKey r) w.now).2 ∧
    ((rl.allow (rateKey r) w.now).1 = false →
      (runHandler w rl r).response = httpError "rate limit exceeded" 429) ∧
    (r.RemoteHost ≠ "" → rateKey r = r.RemoteHost) ∧
    (r.RemoteHost = "" → rateKey r = r.RemoteAddr) ∧
    (∀ u, rateKey { r with userID := u } = rateKey r) := by
  refine ⟨runHandler_limiter w rl r, ?_, ?_, ?_, fun _ => rfl⟩
  · intro h
    simp [runHandler, h]
  · intro h
    simp [rateKey, h]
  · intro h
    simp [rateKey, h]

/-- Witness of C12: two requests from one peer address with different caller
identities share one bucket. -/
theorem rate_key_is_peer_address_witness :
    (runHandler (calmWorld "native")
        (runHandler (calmWorld "native") (newRateLimiter 60) (requestOf helloPython)).limiter
        { requestOf helloPython with userID := some "user-2" }).limiter.items "10.0.0.7"
      = some { count := 2, windowEnd := Minute } := by
  have h := (rate_key_is_peer_address (calmWorld "native")
    (runHandler (calmWorld "native") (newRateLimiter 60) (requestOf helloPython)).limiter
    { requestOf helloPython with userID := some "user-2" }).1
  rw [h]
  decide

/-! ## Memory limit -/

/-- C13, as stated, fails: no maximum is applied to the memory limit. A submission
that asks for 1 TiB, a value the decoder accepts, is handed by the run handler to
the Kubernetes runner with 1 TiB, above the 512 MiB limit of the runner container,
and to the container runner with 1 TiB, which starts the container with
`--memory 1048576m`; the largest value of the machine type is handed over
unchanged too. -/
theorem memory_limit_not_clamped :
    RunRequest.decodable { helloPython with MemoryLimit := 1099511627776 } ∧
    (runHandler (calmWorld "k8s") (newRateLimiter 60)
        (requestOf { helloPython with MemoryLimit := 1099511627776 })).dispatched
      = some { runner := "k8s", req := { helloPython with MemoryLimit := 1099511627776 },
               deadline := 3000000000 } ∧
    (∀ c ∈ (buildPodSpec "coderipper/runner-python:latest" [] []).Containers,
      ("memory", "512Mi") ∈ c.Limits) ∧
    (512 * 1024 * 1024 : Int) < 1099511627776 ∧
    (runHandler (calmWorld "docker") (newRateLimiter 60)
        (requestOf { helloPython with MemoryLimit := 1099511627776 })).dispatched
      = some { runner := "docker", req := { helloPython with MemoryLimit := 1099511627776 },
               deadline := 3000000000 } ∧
    launched (runHandler (calmWorld "docker") (newRateLimiter 60)
        (requestOf { helloPython with MemoryLimit := 1099511627776 })).hostEffects
      = [["docker", "run", "--rm", "--network", "none", "-v",
          "/tmp/coderipper-native-1:/submission:ro", "--memory", "1048576m", "--cpus", "1",
          "coderipper/runner-python:latest", "./run.sh"]] ∧
    RunRequest.decodable { helloPython with MemoryLimit := 9223372036854775807 } ∧
    (runHandler (calmWorld "native") (newRateLimiter 60)
        (requestOf { helloPython with MemoryLimit := 9223372036854775807 })).dispatched
      = some { runner := "native",
               req := { helloPython with MemoryLimit := 9223372036854775807 },
               deadline := 3000000000 } := by
  refine ⟨by decide, by decide, by decide, by decide, by decide, by decide, by decide,
    by decide⟩

/-- The assignment of lines 125-127 only replaces a memory limit of at most 0 by
128 MiB. -/
theorem memoryLimit_normalized (req : RunRequest) :
    0 < (applyDefaults req).MemoryLimit ∧
    (req.MemoryLimit ≤ 0 → (applyDefaults req).MemoryLimit = 134217728) ∧
    (0 < req.MemoryLimit → (applyDefaults req).MemoryLimit = req.MemoryLimit) := by
  unfold applyDefaults
  simp only
  refine ⟨?_, ?_, ?_⟩ <;> split_ifs <;> simp_all

/-- C13 (amended): for every request, whenever the run handler hands the decoded
submission to a runner, the memory limit it hands over is positive, equals
128 MiB (134217728 bytes) when the input is at most 0, and is the input itself
otherwise, however large: no maximum is applied to it. The runner of the mode runs
with that request (the container runner renders its `--memory` argument from it),
and every request that passes the rate limiter and decodes is handed over (in
Docker mode when the temporary directory is made). -/
theorem dispatch_memory_limit (w : World) (rl : RateLimiter) (r : HttpRequest) :
    (∀ d, (runHandler w rl r).dispatched = some d →
      ∃ decoded, r.body = some decoded ∧
        0 < d.req.MemoryLimit ∧
        (decoded.MemoryLimit ≤ 0 → d.req.MemoryLimit = 134217728) ∧
        (0 < decoded.MemoryLimit → d.req.MemoryLimit = decoded.MemoryLimit) ∧
        ((d.runner = "k8s" ∧ (runHandler w rl r).k8sEffects
            = (submitK8sJob w.k8s w.env d.req (runnerImage d.req) d.deadline
                (if w.env "K8S_NAMESPACE" = "" then "default"
                  else w.env "K8S_NAMESPACE")).trace) ∨
         (d.runner = "native" ∧
            (runHandler w rl r).response.body = .native (executeNative w.host d.req).1 ∧
            (runHandler w rl r).hostEffects = (executeNative w.host d.req).2) ∨
         (d.runner = "docker" ∧ ∃ tmpDir, w.host.mkdirTemp = .ok tmpDir ∧
            (runHandler w rl r).hostEffects
              = dockerWriteFiles tmpDir d.req.Files ++ [.exec (dockerArgv d.req tmpDir)] ++
                  [.removeAll tmpDir]))) ∧
    (∀ decoded, (rl.allow (rateKey r) w.now).1 = true → r.body = some decoded →
      (w.env "RUNNER_MODE" = "k8s" ∨ w.env "RUNNER_MODE" = "native" ∨
        w.env "RUNNER_MODE" = "" ∨ ∃ tmpDir, w.host.mkdirTemp = .ok tmpDir) →
      ∃ d, (runHandler w rl r).dispatched = some d) := by
  constructor
  · intro d hd
    obtain ⟨decoded, hb, hreq, -, hrun⟩ := runHandler_dispatched w rl r d hd
    have hm := memoryLimit_normalized decoded
    rw [← hreq] at hm
    exact ⟨decoded, hb, hm.1, hm.2.1, hm.2.2, hrun⟩
  · intro decoded ha hb hm
    obtain ⟨runner, h⟩ := runHandler_dispatches w rl r decoded ha hb hm
    exact ⟨_, h⟩

/-- Witness of C13: the submission of scenario 1, which sets no memory limit, is
handed to the container runner with 128 MiB and run with `--memory 128m`. -/
theorem dispatch_memory_limit_witness :
    helloPython.MemoryLimit ≤ 0 ∧
    (runHandler (calmWorld "docker") (newRateLimiter 60) (requestOf helloPython)).dispatched
      = some { runner := "docker", req := { helloPython with MemoryLimit := 134217728 },
               deadline := 3000000000 } ∧
    launched (runHandler (calmWorld "docker") (newRateLimiter 60)
        (requestOf helloPython)).hostEffects
      = [["docker", "run", "--rm", "--network", "none", "-v",
          "/tmp/coderipper-native-1:/submission:ro", "--memory", "128m", "--cpus", "1",
          "coderipper/runner-python:latest", "./run.sh"]] ∧
    (∀ d, (runHandler (calmWorld "docker") (newRateLimiter 60)
        (requestOf helloPython)).dispatched = some d → d.req.MemoryLimit = 134217728) := by
  refine ⟨by decide, by decide, by decide, ?_⟩
  intro d hd
  obtain ⟨decoded, hb, -, h0, -, -⟩ := (dispatch_memory_limit (calmWorld "docker")
    (newRateLimiter 60) (requestOf helloPython)).1 d hd
  have hdec : decoded = helloPython := by
    have : (requestOf helloPython).body = some helloPython := rfl
    rw [this] at hb
    injection hb with hb
    exact hb.symm
  exact h0 (by rw [hdec]; decide)

/-! ## Token verifier -/

/-- A header that does not start with `Bearer` yields no token. -/
theorem scanBearer_unmatched (h : String) (hp : "Bearer".toList.isPrefixOf h.toList = false) :
    scanBearer h = "" := by
  unfold scanBearer
  rw [if_neg (by rw [hp]; exact Bool.false_ne_true)]

/-- C14: for every request given to `authMiddleware(secret, next)`: when the
header `Authorization` is missing, does not start with `Bearer`, carries no token
after it, or carries a token that the token library rejects (signature or
expiry), the response has status 401 and `next` is not invoked; when the token
verifies, `next` is invoked exactly once, with the subject of the token stored in
the request context, and the response is the response of `next`. -/
theorem auth_middleware (jwtParse : String → String → Option String) (secret : String)
    (next : HttpRequest → Response) (r : HttpRequest) :
    ((r.Authorization = "" ∨ "Bearer".toList.isPrefixOf r.Authorization.toList = false ∨
        scanBearer r.Authorization = "" ∨
        jwtParse secret (scanBearer r.Authorization) = none) →
      (authMiddleware jwtParse secret next r).response.status = 401 ∧
      (authMiddleware jwtParse secret next r).response = httpError "unauthorized" 401 ∧
      (authMiddleware jwtParse secret next r).forwarded = []) ∧
    (∀ subject, r.Authorization ≠ "" → scanBearer r.Authorization ≠ "" →
      jwtParse secret (scanBearer r.Authorization) = some subject →
      (authMiddleware jwtParse secret next r).forwarded = [{ r with userID := some subject }] ∧
      (authMiddleware jwtParse secret next r).response
        = next { r with userID := some subject }) := by
  constructor
  · intro h
    have key : r.Authorization = "" ∨ scanBearer r.Authorization = "" ∨
        jwtParse secret (scanBearer r.Authorization) = none := by
      rcases h with h | h | h | h
      · exact Or.inl h
      · exact Or.inr (Or.inl (scanBearer_unmatched _ h))
      · exact Or.inr (Or.inl h)
      · exact Or.inr (Or.inr h)
    unfold authMiddleware
    by_cases h1 : r.Authorization = ""
    · simp [h1, httpError]
    · by_cases h2 : scanBearer r.Authorization = ""
      · simp [h1, h2, httpError]
      · rcases key with h | h | h
        · exact absurd h h1
        · exact absurd h h2
        · simp [h1, h2, h, httpError]
  · intro subject h1 h2 h3
    simp [authMiddleware, h1, h2, h3]

/-- Witness of C14: the two requests of `TestAuthMiddleware`, one without a token
(401) and one with a token that verifies (200), and a request with another scheme. -/
theorem auth_middleware_witness :
    (authMiddleware testJwtParse "testsecret" okHandler (requestWithHeader "")).response.status
      = 401 ∧
    (authMiddleware testJwtParse "testsecret" okHandler
      (requestWithHeader "Basic dXNlcjpwYXNz")).forwarded = [] ∧
    (authMiddleware testJwtParse "testsecret" okHandler
      (requestWithHeader "Bearer header.claims.signature")).response.status = 200 ∧
    ((authMiddleware testJwtParse "testsecret" okHandler
      (requestWithHeader "Bearer header.claims.signature")).forwarded.map (fun q => q.userID))
      = [some "user-1"] := by
  have h := auth_middleware testJwtParse "testsecret" okHandler
  refine ⟨((h (requestWithHeader "")).1 (Or.inl rfl)).1,
    ((h (requestWithHeader "Basic dXNlcjpwYXNz")).1 (Or.inr (Or.inl (by decide)))).2.2, ?_, ?_⟩
  · rw [((h (requestWithHeader "Bearer header.claims.signature")).2 "user-1" (by decide)
      (by decide) (by decide)).2]
    rfl
  · rw [((h (requestWithHeader "Bearer header.claims.signature")).2 "user-1" (by decide)
      (by decide) (by decide)).1]
    rfl

/-! ## Languages of the native runner -/

theorem launched_append (a b : List HostEffect) :
    launched (a ++ b) = launched a ++ launched b := by
  induction a with
  | nil => rfl
  | cons e rest ih => cases e <;> simp [launched, ih]

theorem nativeWriteFiles_launched (w : HostWorld) (tmpDir : Path)
    (files : List (String × String)) :
    ∀ mainFile : Option Path, launched (nativeWriteFiles w tmpDir files mainFile).2 = [] := by
  induction files with
  | nil => intro mainFile; rfl
  | cons f rest ih =>
    obtain ⟨name, content⟩ := f
    intro mainFile
    unfold nativeWriteFiles
    simp only
    rcases w.mkdirAll (Dir (Join tmpDir name)) with _ | e
    · rcases w.writeFile (Join tmpDir name) with _ | e
      · simp only [launched]
        exact ih _
      · rfl
    · rfl

theorem nativeCommand_some (lang : String) (tmpDir : Path) (mainFile : Option Path)
    (h : lang ∈ nativeTags) : (nativeCommand lang tmpDir mainFile).isSome = true := by
  simp only [nativeTags, List.mem_cons, List.mem_singleton, List.not_mem_nil, or_false] at h
  rcases h with h | h | h | h | h | h | h | h | h | h | h | h | h | h | h | h | h | h | h | h | h <;>
    subst h <;> rfl

/-- The `switch` takes its `default` branch exactly for the tags that are not
among its case labels. -/
theorem nativeCommand_none (lang : String) (tmpDir : Path) (mainFile : Option Path) :
    nativeCommand lang tmpDir mainFile = none ↔ lang ∉ nativeTags := by
  constructor
  · intro h hmem
    have := nativeCommand_some lang tmpDir mainFile hmem
    rw [h] at this
    cases this
  · intro h
    simp only [nativeTags, List.mem_cons, List.mem_singleton, List.not_mem_nil, or_false,
      not_or] at h
    obtain ⟨h1, h2, h3, h4, h5, h6, h7, h8, h9, h10, h11, h12, h13, h14, h15, h16, h17, h18,
      h19, h20, h21⟩ := h
    unfold nativeCommand
    simp only []
    rw [if_neg (not_or.mpr ⟨h1, h2⟩), if_neg (not_or.mpr ⟨h3, not_or.mpr ⟨h4, h5⟩⟩),
      if_neg (not_or.mpr ⟨h6, h7⟩), if_neg (not_or.mpr ⟨h8, h9⟩), if_neg h10, if_neg h11,
      if_neg (not_or.mpr ⟨h12, h13⟩), if_neg h14, if_neg h15, if_neg h16,
      if_neg (not_or.mpr ⟨h17, not_or.mpr ⟨h18, h19⟩⟩), if_neg (not_or.mpr ⟨h20, h21⟩)]

/-- C15, as stated, fails: the tags `shell` and `ps1` are not in the dispatch table
of the specification, yet the runner launches `bash` and `powershell` for them. -/
theorem unlisted_tags_are_run :
    "shell" ∉ listedTags ∧ "ps1" ∉ listedTags ∧
    launched (executeNative calmHost { helloPython with Language := "shell" }).2
      = [["bash", "/tmp/coderipper-native-1/main.py"]] ∧
    (executeNative calmHost { helloPython with Language := "shell" }).1.ExitCode = 0 ∧
    (executeNative calmHost { helloPython with Language := "shell" }).1.Success = true ∧
    launched (executeNative calmHost { helloPython with Language := "ps1" }).2
      = [["powershell", "-ExecutionPolicy", "Bypass", "-File",
          "/tmp/coderipper-native-1/main.py"]] := by
  decide

/-- C15 (amended): for every language tag that is not a case label of the switch
(the tags of the dispatch table and also `shell` and `ps1`), `executeNative`
launches no child process and returns exit code 1 and success false; when the
temporary directory and the files were written, it echoes the language and its
standard error reports the language as not supported. -/
theorem unsupported_language (w : HostWorld) (req : RunRequest)
    (hlang : req.Language ∉ nativeTags) :
    launched (executeNative w req).2 = [] ∧
    (executeNative w req).1.ExitCode = 1 ∧
    (executeNative w req).1.Success = false ∧
    (∀ tmpDir mainFile, w.mkdirTemp = .ok tmpDir →
      (nativeWriteFiles w tmpDir req.Files none).1 = .ok mainFile →
      (executeNative w req).1.Language = req.Language ∧
      (executeNative w req).1.Stderr = notSupported req.Language) := by
  unfold executeNative
  rcases hd : w.mkdirTemp with e | tmpDir
  · refine ⟨rfl, rfl, rfl, ?_⟩
    intro tmpDir mainFile h
    cases h
  · simp only
    have hl := nativeWriteFiles_launched w tmpDir req.Files none
    unfold executeNativeIn
    rcases hres : nativeWriteFiles w tmpDir req.Files none with ⟨res, eff⟩
    rw [hres] at hl
    rcases res with msg | mainFile
    · refine ⟨by simpa [launched_append, launched] using hl, rfl, rfl, ?_⟩
      intro tmpDir2 mainFile2 h2 hok
      injection h2 with h2
      subst h2
      rw [hres] at hok
      cases hok
    · simp only
      rw [(nativeCommand_none req.Language tmpDir mainFile).mpr hlang]
      refine ⟨by simpa [launched_append, launched] using hl, rfl, rfl, ?_⟩
      intro _ _ _ _
      exact ⟨rfl, rfl⟩

/-- Witness of C15: a tag outside the switch on a host where every call succeeds. -/
theorem unsupported_language_witness :
    "cobol" ∉ nativeTags ∧
    launched (executeNative calmHost { helloPython with Language := "cobol" }).2 = [] ∧
    (executeNative calmHost { helloPython with Language := "cobol" }).1
      = { Stdout := "", Stderr := notSupported "cobol", ExitCode := 1, Success := false,
          Language := "cobol" } := by
  have h := unsupported_language calmHost { helloPython with Language := "cobol" } (by decide)
  exact ⟨by decide, h.1, by decide⟩

/-! ## Response of the validator -/

/-- C16: for every admission review whose request is present, `admitPods` answers
the review with a response whose UID is the UID of the request, whether it allows
or rejects and whatever the kind of the resource and the operation. -/
theorem response_uid_echo (rr : String) (review : AdmissionReview) (req : AdmissionRequest)
    (hreq : review.Request = some req) :
    ∃ resp, admitPods rr (.review review) = .review { review with Response := some resp } ∧
      resp.UID = req.UID := by
  refine ⟨_, by simp only [admitPods, hreq]; rfl, rfl⟩

/-- Witness of C16: a rejected Pod create and an allowed delete of a Deployment. -/
theorem response_uid_echo_witness :
    (∃ resp, admitPods "gvisor" (.review (createReview doubleFaultPod))
        = .review { createReview doubleFaultPod with Response := some resp } ∧
      resp.UID = "705ab4f5") ∧
    admitPods "gvisor" (.review
        { Request := some { UID := "9c1e", Kind := "Deployment", Operation := "DELETE",
                            Object := none },
          Response := none })
      = .review
        { Request := some { UID := "9c1e", Kind := "Deployment", Operation := "DELETE",
                            Object := none },
          Response := some { UID := "9c1e", Allowed := true, Result := none } } :=
  ⟨response_uid_echo "gvisor" (createReview doubleFaultPod)
      { UID := "705ab4f5", Kind := "Pod", Operation := "CREATE", Object := some doubleFaultPod }
      rfl,
   by decide⟩

/-! ## The pod of the runner before the validator -/

theorem submit_createJob (w : K8sWorld) (env : String → String) (req : RunRequest)
    (image : String) (timeout : Int) (ns : String) (job : Job) (ok : Bool)
    (h : K8sEffect.createJob job ok ∈ (submitK8sJob w env req image timeout ns).trace) :
    ∃ vols inits, job.Template = buildPodSpec image vols inits := by
  unfold submitK8sJob at h
  rcases hc : acquireClient w with _ | e
  · simp only [hc] at h
    by_cases hs : useS3 env req = true
    · simp only [hs, if_true] at h
      have hobj := s3Transport_all_objectStore w env req
      rcases ht : s3Transport w env req with ⟨res, tr⟩
      rw [ht] at hobj
      rcases res with e | ⟨vols, inits⟩
      · simp only [ht] at h
        have := hobj _ h
        cases this
      · simp only [ht, List.mem_append] at h
        rcases h with h | h
        · have := hobj _ h
          cases this
        · exact ⟨vols, inits, runJob_createJob w image ns vols inits job ok h⟩
    · simp only [hs, Bool.false_eq_true, if_false] at h
      rcases hm : w.cmCreate with _ | e
      · simp only [hm, List.mem_append, List.mem_singleton, reduceCtorEq, or_false,
          false_or] at h
        exact ⟨_, _, runJob_createJob w image ns _ _ job ok h⟩
      · simp [hm] at h
  · simp [hc] at h

/-- The pod of the runner violates the runtime-class rule when a runtime class is
required, and no other rule. -/
theorem runner_violations (rr image : String) (vols : List Volume) (inits : List Container)
    (pod : Pod) (hpod : pod.Spec = buildPodSpec image vols inits) :
    violations rr pod = if rr = "" then [] else ["pod must set RuntimeClassName=" ++ rr] := by
  unfold violations
  rw [hpod]
  by_cases hr : rr = "" <;> simp [buildPodSpec, containerViolations, hr]

/-- C17, as stated, fails: the pod `submitK8sJob` builds sets no runtime class, so
a validator that requires one rejects it. -/
theorem runner_pod_rejected_with_runtime :
    K8sEffect.createJob (buildJob "runner-job-3" "default" "coderipper/runner-python:latest"
        [{ Name := "submission", Source := .configMap "submission-1" }] []) true
      ∈ (submitK8sJob calmCluster noEnv helloPython "coderipper/runner-python:latest"
          3000000000 "default").trace ∧
    runnerPod.Spec = (buildJob "runner-job-3" "default" "coderipper/runner-python:latest"
        [{ Name := "submission", Source := .configMap "submission-1" }] []).Template ∧
    admitPods "gvisor" (.review (createReview runnerPod))
      = .review { createReview runnerPod with
          Response := some { UID := "705ab4f5", Allowed := false,
                             Result := some "pod must set RuntimeClassName=gvisor" } } := by
  decide

/-- C17 (amended): for every submission, image and transport, the pod spec of the
Job `submitK8sJob` creates satisfies the token auto-mount rule and the container
security-context rule of the validator and sets no runtime class: the validator
allows a pod with that spec exactly when it requires no runtime class, and rejects
it with the runtime-class message otherwise. -/
theorem runner_pod_admitted (w : K8sWorld) (env : String → String) (req : RunRequest)
    (image : String) (timeout : Int) (ns : String) (job : Job) (ok : Bool) (pod : Pod)
    (hjob : K8sEffect.createJob job ok ∈ (submitK8sJob w env req image timeout ns).trace)
    (hpod : pod.Spec = job.Template) :
    (∀ rr, (checkPod rr pod).1 = true ↔ rr = "") ∧
    (∀ rr, rr ≠ "" → checkPod rr pod = (false, "pod must set RuntimeClassName=" ++ rr)) ∧
    (∀ uid op, op = "CREATE" ∨ op = "UPDATE" →
      admitPods "" (.review
          { Request := some { UID := uid, Kind := "Pod", Operation := op, Object := some pod },
            Response := none })
        = .review
          { Request := some { UID := uid, Kind := "Pod", Operation := op, Object := some pod },
            Response := some { UID := uid, Allowed := true, Result := none } }) := by
  obtain ⟨vols, inits, htpl⟩ := submit_createJob w env req image timeout ns job ok hjob
  have hv := fun rr => runner_violations rr image vols inits pod (hpod.trans htpl)
  refine ⟨?_, ?_, ?_⟩
  · intro rr
    rw [checkPod_eq, overwrite_allowed, hv]
    by_cases hr : rr = "" <;> simp [hr]
  · intro rr hr
    rw [checkPod_eq, hv, if_neg hr]
    rfl
  · intro uid op hop
    have hc : checkPod "" pod = (true, "") := by
      rw [checkPod_eq, hv]
      rfl
    simp [admitPods, decision, hop, hc]

/-- Witness of C17: the Job of scenario 4 and the pod made from its template. -/
theorem runner_pod_admitted_witness :
    admitPods "" (.review (createReview runnerPod))
      = .review { createReview runnerPod with
          Response := some { UID := "705ab4f5", Allowed := true, Result := none } } :=
  (runner_pod_admitted calmCluster noEnv helloPython "coderipper/runner-python:latest"
    3000000000 "default"
    (buildJob "runner-job-3" "default" "coderipper/runner-python:latest"
      [{ Name := "submission", Source := .configMap "submission-1" }] []) true runnerPod
    (by decide) rfl).2.2 "705ab4f5" "CREATE" (Or.inl rfl)

/-! ## A failed Job -/

/-- C18 at a run whose supervision ends on `JobFailed=True` and whose output
collection succeeds, the status of the container `runner` having no terminated
state (or the pod having no container status at all): `submitK8sJob` returns exit
code 0 and success true, and the handler answers 200 and counts `status=ok`. -/
theorem failed_job_reported_success :
    supervise failedJobCluster.polls = (.terminal, 1) ∧
    (submitK8sJob failedJobCluster noEnv helloPython "coderipper/runner-python:latest"
        3000000000 "default").ret
      = .result { Stdout := "", ExitCode := 0, Success := true } ∧
    (submitK8sJob failedJobNoStatusCluster noEnv helloPython "coderipper/runner-python:latest"
        3000000000 "default").ret
      = .result { Stdout := "", ExitCode := 0, Success := true } ∧
    (runHandler { calmWorld "k8s" with k8s := failedJobCluster } (newRateLimiter 60)
        (requestOf helloPython)).response
      = { status := 200, body := .k8s { Stdout := "", ExitCode := 0, Success := true } } ∧
    (runHandler { calmWorld "k8s" with k8s := failedJobCluster } (newRateLimiter 60)
        (requestOf helloPython)).metrics = [("k8s", "ok")] := by
  decide

/-! ## Memory cap of the container runner -/

/-- C19 at a submission with a memory limit of one byte: the limit is positive
after the defaults, the quotient by 1024*1024 is zero, and the container runtime
is started with `--memory 0m`. -/
theorem small_memory_renders_zero :
    0 < (applyDefaults { helloPython with MemoryLimit := 1 }).MemoryLimit ∧
    dockerMem (applyDefaults { helloPython with MemoryLimit := 1 }) = "0m" ∧
    dockerMem (applyDefaults { helloPython with MemoryLimit := 1048575 }) = "0m" ∧
    launched (runHandler (calmWorld "docker") (newRateLimiter 60)
        (requestOf { helloPython with MemoryLimit := 1 })).hostEffects
      = [["docker", "run", "--rm", "--network", "none", "-v",
          "/tmp/coderipper-native-1:/submission:ro", "--memory", "0m", "--cpus", "1",
          "coderipper/runner-python:latest", "./run.sh"]] := by
  decide

end CodeRipper
